import Mathlib

/-!
Mastermind on a Raspberry Pi: GPIO register driver, debounced button input, LCD byte protocol.

A shallow embedding of `src/gpio/gpio.c`, `src/lcd/lcd.c` and `src/timeunits.h`.

* The debounced input functions (`GPIO_get_state`, `GPIO_get_button_press`,
  `GPIO_get_button_presses`) poll a volatile level register.  They are embedded as functions on a
  `Line`: the finite sequence of raw levels that the successive `get_state` calls will observe,
  together with three observation logs (time slept, results of the debounced reads, arguments
  passed to the click handler).  A function returns `none` when the supplied samples are used up
  before the C function would have returned, i.e. when the C function is still blocked.
* Machine integers are natural numbers with an explicit `% 2 ^ w` where the C type can wrap.
-/

namespace Mastermind

/-! ## `timeunits.h` -/

/-- Macro `SEC_TO_NS(x)`: `((x) * 1000000000)`. -/
def SEC_TO_NS (x : Nat) : Nat := x * 1000000000

/-- Macro `MS_TO_NS(x)`: `((x) * 1000000)`. -/
def MS_TO_NS (x : Nat) : Nat := x * 1000000

/-- Macro `US_TO_NS(x)`: `((x) * 1000)`. -/
def US_TO_NS (x : Nat) : Nat := x * 1000

/-! ## Constants of `gpio.c` -/

/-- Constant `BTN_TIMEOUT_S` (seconds). -/
def BTN_TIMEOUT_S : Nat := 2

/-- Constant `BTN_PROBE_TIME_MS`. -/
def BTN_PROBE_TIME_MS : Nat := 100

/-- Constant `BOUNCE_TIME_MS`. -/
def BOUNCE_TIME_MS : Nat := 30

/-! ## The observed line -/

/-- What the polling code interacts with.
* `samples`: the raw levels of the observed pin that the next calls of `get_state` will read,
  in order (`true` is high);
* `clock`: nanoseconds spent in `nanosleep` so far;
* `polls`: the values returned by the calls of `GPIO_get_state` so far, oldest first;
* `clicks`: the arguments passed to `click_handler` so far, oldest first. -/
structure Line where
  samples : List Bool
  clock : Nat
  polls : List Nat
  clicks : List Nat
deriving DecidableEq, Repr

/-- A fresh line carrying the given raw samples and empty logs. -/
def Line.start (samples : List Bool) : Line :=
  { samples := samples, clock := 0, polls := [], clicks := [] }

/-- Library call `nanosleep(&delay, NULL)` with `delay.tv_sec = 0`, `delay.tv_nsec = ns`. -/
def nanosleep (ns : Nat) (l : Line) : Line :=
  { l with clock := l.clock + ns }

/-- Static function `get_state(pin)` as the polling code sees it: one load of the volatile level
register, returning `state > 0`.  Each call reads the next raw sample of the line. -/
def get_state (_pin : Nat) (l : Line) : Option (Nat × Line) :=
  match l.samples with
  | [] => none
  | b :: rest => some (if b then 1 else 0, { l with samples := rest })

/-- Function `GPIO_get_state(pin)` of `gpio.c`, lines 193-207. -/
def GPIO_get_state (pin : Nat) (l : Line) : Option (Nat × Line) :=
  match get_state pin l with
  | none => none
  | some (s1, l1) =>
    if s1 ≠ 0 then
      match get_state pin (nanosleep (MS_TO_NS BOUNCE_TIME_MS) l1) with
      | none => none
      | some (s2, l2) =>
        if s2 ≠ 0 then some (1, { l2 with polls := l2.polls ++ [1] })
        else some (0, { l2 with polls := l2.polls ++ [0] })
    else some (0, { l1 with polls := l1.polls ++ [0] })

/-- Every call of `GPIO_get_state` that returns has read at least one sample. -/
theorem GPIO_get_state_samples_lt {pin : Nat} {l l1 : Line} {v : Nat}
    (h : GPIO_get_state pin l = some (v, l1)) : l1.samples.length < l.samples.length := by
  obtain ⟨samples, clock, polls, clicks⟩ := l
  match samples with
  | [] => simp [GPIO_get_state, get_state] at h
  | false :: rest =>
    simp [GPIO_get_state, get_state] at h
    obtain ⟨-, rfl⟩ := h
    simp
  | true :: [] => simp [GPIO_get_state, get_state, nanosleep] at h
  | true :: false :: rest =>
    simp [GPIO_get_state, get_state, nanosleep] at h
    obtain ⟨-, rfl⟩ := h
    simp only [List.length_cons]
    omega
  | true :: true :: rest =>
    simp [GPIO_get_state, get_state, nanosleep] at h
    obtain ⟨-, rfl⟩ := h
    simp only [List.length_cons]
    omega

/-- Loop `while (GPIO_get_state(pin) == 0) ;` (wait for the button to be pressed). -/
def wait_while_low (pin : Nat) (l : Line) : Option Line :=
  match h : GPIO_get_state pin l with
  | none => none
  | some (v, l1) => if v = 0 then wait_while_low pin l1 else some l1
termination_by l.samples.length
decreasing_by exact GPIO_get_state_samples_lt h

/-- Loop `while (GPIO_get_state(pin) != 0) ;` (wait for the button to be released). -/
def wait_while_high (pin : Nat) (l : Line) : Option Line :=
  match h : GPIO_get_state pin l with
  | none => none
  | some (v, l1) => if v ≠ 0 then wait_while_high pin l1 else some l1
termination_by l.samples.length
decreasing_by exact GPIO_get_state_samples_lt h

/-- Function `GPIO_get_button_press(pin)` of `gpio.c`, lines 209-217. -/
def GPIO_get_button_press (pin : Nat) (l : Line) : Option (Nat × Line) :=
  match wait_while_low pin l with
  | none => none
  | some l1 =>
    match wait_while_high pin l1 with
    | none => none
    | some l2 => some (1, l2)

/-- Unfolding of the press loop without the termination evidence. -/
theorem wait_while_low_eq (pin : Nat) (l : Line) :
    wait_while_low pin l =
      match GPIO_get_state pin l with
      | none => none
      | some (v, l1) => if v = 0 then wait_while_low pin l1 else some l1 := by
  rw [wait_while_low]
  split <;> simp [*]

/-- Unfolding of the release loop without the termination evidence. -/
theorem wait_while_high_eq (pin : Nat) (l : Line) :
    wait_while_high pin l =
      match GPIO_get_state pin l with
      | none => none
      | some (v, l1) => if v ≠ 0 then wait_while_high pin l1 else some l1 := by
  rw [wait_while_high]
  split <;> simp [*]

/-- The release loop never hands back more samples than it was given. -/
theorem wait_while_high_samples_le {pin : Nat} {l l1 : Line}
    (h : wait_while_high pin l = some l1) : l1.samples.length ≤ l.samples.length := by
  induction l using wait_while_high.induct pin with
  | case1 l hn => rw [wait_while_high_eq, hn] at h; simp at h
  | case2 l v l2 hs hv ih =>
    rw [wait_while_high_eq, hs] at h
    simp only [] at h
    rw [if_pos hv] at h
    have := GPIO_get_state_samples_lt hs
    have := ih h
    omega
  | case3 l v l2 hs hv =>
    rw [wait_while_high_eq, hs] at h
    simp only [] at h
    rw [if_neg hv] at h
    have := GPIO_get_state_samples_lt hs
    cases h
    omega

/-- A call `click_handler(presses)`; a null handler is not called. -/
def call_click_handler (click_handler : Bool) (presses : Nat) (l : Line) : Line :=
  if click_handler then { l with clicks := l.clicks ++ [presses] } else l

/-- Calling the handler reads no sample. -/
theorem call_click_handler_samples (click_handler : Bool) (presses : Nat) (l : Line) :
    (call_click_handler click_handler presses l).samples = l.samples := by
  unfold call_click_handler
  split <;> rfl

/-- The statements `presses++; if (presses > max) presses = 1;` on the `uint8_t` counter. -/
def next_presses (max presses : Nat) : Nat :=
  let presses := (presses + 1) % 2 ^ 8
  if presses > max then 1 else presses

/-- The `for (uint32_t i = 0; i < timeout; i += probe_time)` loop of `GPIO_get_button_presses`,
`gpio.c` lines 237-259, entered with the current values of `i` and `presses`. -/
def timeout_loop (pin max : Nat) (click_handler : Bool) (timeout probe_time : Nat)
    (i presses : Nat) (l : Line) : Option (Nat × Line) :=
  if i < timeout then
    match h : GPIO_get_state pin l with
    | none => none
    | some (v, l1) =>
      if v = 0 then
        timeout_loop pin max click_handler timeout probe_time ((i + probe_time) % 2 ^ 32) presses
          (nanosleep probe_time l1)
      else
        let i := 0
        let presses := next_presses max presses
        let l2 := call_click_handler click_handler presses l1
        match h2 : wait_while_high pin l2 with
        | none => none
        | some l3 =>
          timeout_loop pin max click_handler timeout probe_time ((i + probe_time) % 2 ^ 32)
            presses l3
  else some (presses, l)
termination_by l.samples.length
decreasing_by
  · have := GPIO_get_state_samples_lt h
    simpa [nanosleep] using this
  · have h1 := GPIO_get_state_samples_lt h
    have h3 := wait_while_high_samples_le h2
    rw [call_click_handler_samples] at h3
    omega

/-- Function `GPIO_get_button_presses(pin, max, click_handler)` of `gpio.c`, lines 219-261.
`click_handler` tells whether the handler pointer is non-null. -/
def GPIO_get_button_presses (pin max : Nat) (click_handler : Bool) (l : Line) :
    Option (Nat × Line) :=
  match GPIO_get_button_press pin l with
  | none => none
  | some (_, l1) =>
    let presses := 1
    let l2 := call_click_handler click_handler presses l1
    let timeout := SEC_TO_NS BTN_TIMEOUT_S % 2 ^ 32
    let probe_time := MS_TO_NS BTN_PROBE_TIME_MS % 2 ^ 32
    timeout_loop pin max click_handler timeout probe_time 0 presses l2

/-- Raw samples of one clean click: the line is high for two consecutive raw reads (one
debounced read that returns 1) and low at the next one (the release). -/
def one_click : List Bool := [true, true, false]

/-- Raw samples of `k` clean clicks in immediate succession. -/
def n_clicks : Nat → List Bool
  | 0 => []
  | k + 1 => one_click ++ n_clicks k

/-- Raw samples of a press held for `hold + 1` debounced reads and then released. -/
def held_click (hold : Nat) : List Bool :=
  List.replicate (2 * hold + 2) true ++ [false]

/-- Raw samples of a sequence of presses, each given by the number of low samples before it
and by its hold. -/
def spaced_clicks : List (Nat × Nat) → List Bool
  | [] => []
  | (gap, hold) :: ps => List.replicate gap false ++ (held_click hold ++ spaced_clicks ps)

/-- The gaps that the timeout loop of the code still polls when it is entered with
`i = j * probe_time`: the press must be read by one of the probes that remain, and after a
press the loop resumes with `j = 1`. -/
def polled_gaps : Nat → List (Nat × Nat) → Bool
  | _, [] => true
  | j, (gap, _) :: ps => decide (j + gap ≤ 19) && polled_gaps 1 ps

/-- The values `next_presses` produces in `k` successive presses, starting from `presses`. -/
def click_values (max : Nat) : Nat → Nat → List Nat
  | _, 0 => []
  | presses, k + 1 => next_presses max presses :: click_values max (next_presses max presses) k

end Mastermind

/-! ## Register driver (`gpio.c`, lines 61-191)

The mapped block is a map from byte offsets (relative to the base pointer `gpio`) to 32-bit words.
How the peripheral reacts to a store is a parameter (`Device`): a plain word array, or a loopback
model in which the set and clear registers act on the level register.  The inline assembly is
embedded instruction by instruction on 32-bit register values. -/

namespace Mastermind.Driver

/-- Contents of the mapped register block, by byte offset from the base. -/
abbrev Regs := Nat → Nat

/-- Byte offset of `GPSET0`, `#0x1C` in the assembly. -/
def GPSET0 : Nat := 0x1C

/-- Byte offset of `GPCLR0`, `#0x28` in the assembly. -/
def GPCLR0 : Nat := 0x28

/-- Byte offset of `GPLEV0`, `#0x34` in the assembly. -/
def GPLEV0 : Nat := 0x34

/-- ARM `LSL Rd, Rs`: shift left by the bottom byte of `Rs`; an amount of 32 or more gives 0. -/
def lsl (x n : Nat) : Nat :=
  if n % 256 < 32 then (x <<< (n % 256)) % 2 ^ 32 else 0

/-- ARM `BIC Rd, Rn, Rm`: `Rn AND NOT Rm` on 32 bits. -/
def bic (x m : Nat) : Nat :=
  x &&& (m ^^^ (2 ^ 32 - 1))

/-- Reaction of the peripheral to a store of `v` at byte offset `off`. -/
structure Device where
  store : Regs → Nat → Nat → Regs

/-- A plain array of words: a store replaces the word at that offset. -/
def word_array : Device :=
  { store := fun m off v o => if o = off then v else m o }

/-- Loopback model: a bit written to the set register becomes 1 in the level register, a bit
written to the clear register becomes 0 there; every other word is plain storage. -/
def loopback : Device :=
  { store := fun m off v o =>
      if off = GPSET0 then (if o = GPLEV0 then m GPLEV0 ||| v else m o)
      else if off = GPCLR0 then (if o = GPLEV0 then bic (m GPLEV0) v else m o)
      else if o = off then v else m o }

/-- State of the driver.
* `gpio`: whether the static pointer `gpio` is non-null (set by a successful `GPIO_init`);
* `regs`: the register block;
* `r4`, `r6`, `r9`: the ARM registers that the assembly of `GPIO_set_in` leaves behind and the
  assembly of `GPIO_set_out` reads (the base address in `R14` is implicit in the offsets);
* `stderr`: diagnostics printed so far. -/
structure Gpio where
  gpio : Bool
  regs : Regs
  r4 : Nat
  r6 : Nat
  r9 : Nat
  stderr : List String

/-- Instruction `LDR Rd, [base, off]` with the base `gpio`.  Through a null base this is an
access to the unmapped address `off`, reported as `Except.error off`. -/
def ldr (s : Gpio) (off : Nat) : Except Nat Nat :=
  if s.gpio then .ok (s.regs off % 2 ^ 32) else .error off

/-- Instruction `STR Rd, [base, off]` with the base `gpio`; a fault through a null base. -/
def str (dev : Device) (s : Gpio) (off v : Nat) : Except Nat Gpio :=
  if s.gpio then .ok { s with regs := dev.store s.regs off v } else .error off

/-- The division loop of `GPIO_set_in` (`div:` / `cond:`), with `R12 = 10`: `CMP R10, R12`,
`BHS div`, `SUBS R10, R10, R12`, `ADDPL R9, #1`.  Returns the final `(R9, R10)`. -/
def div_loop (r9 r10 : Nat) : Nat × Nat :=
  if 10 ≤ r10 then
    div_loop (if r10 - 10 < 2 ^ 31 then (r9 + 1) % 2 ^ 32 else r9) (r10 - 10)
  else (r9, r10)
termination_by r10
decreasing_by omega

/-- Function `GPIO_set_in(pin)` of `gpio.c`, lines 61-110. -/
def GPIO_set_in (dev : Device) (s : Gpio) (pin : Nat) : Except Nat Gpio :=
  if !s.gpio then
    .ok { s with stderr := s.stderr ++ ["Error: Null GPIO pointer\n"] }
  else
    let qr := div_loop 0 pin
    let r9 := (qr.1 * 4) % 2 ^ 32
    match ldr s r9 with
    | .error a => .error a
    | .ok r4 =>
      let r6 := (qr.2 * 3) % 2 ^ 32
      let r5 := lsl 7 r6
      let r4 := bic r4 r5
      match str dev s r9 r4 with
      | .error a => .error a
      | .ok s1 => .ok { s1 with r4 := r4, r6 := r6, r9 := r9 }

/-- Function `GPIO_set_out(pin)` of `gpio.c`, lines 112-132.  Its assembly uses `R4`, `R6` and
`R9` as the assembly of `GPIO_set_in` left them. -/
def GPIO_set_out (dev : Device) (s : Gpio) (pin : Nat) : Except Nat Gpio :=
  if !s.gpio then
    .ok { s with stderr := s.stderr ++ ["Error: Null GPIO pointer\n"] }
  else
    match GPIO_set_in dev s pin with
    | .error a => .error a
    | .ok s1 =>
      let r5 := lsl 1 s1.r6
      let r4 := s1.r4 ||| r5
      match str dev s1 s1.r9 r4 with
      | .error a => .error a
      | .ok s2 => .ok { s2 with r4 := r4 }

/-- Function `GPIO_set_state(pin, state)` of `gpio.c`, lines 134-167. -/
def GPIO_set_state (dev : Device) (s : Gpio) (pin state : Nat) : Except Nat Gpio :=
  if state ≠ 0 then
    match ldr s GPSET0 with
    | .error a => .error a
    | .ok r6 =>
      let r7 := lsl 1 pin
      match str dev s GPSET0 r7 with
      | .error a => .error a
      | .ok s1 => .ok { s1 with r6 := r6 }
  else
    match ldr s GPCLR0 with
    | .error a => .error a
    | .ok r6 =>
      let r7 := lsl 1 pin
      match str dev s GPCLR0 r7 with
      | .error a => .error a
      | .ok s1 => .ok { s1 with r6 := r6 }

/-- Static function `get_state(pin)` of `gpio.c`, lines 173-191: the raw read. -/
def get_state (s : Gpio) (pin : Nat) : Except Nat (Nat × Gpio) :=
  match ldr s GPLEV0 with
  | .error a => .error a
  | .ok r6 =>
    let r8 := lsl 1 pin
    let state := r6 &&& r8
    .ok (if state > 0 then 1 else 0, { s with r6 := r6 })

/-- The sequence `GPIO_set_out(pin); GPIO_set_state(pin, state); get_state(pin)`, returning the
value of the raw read. -/
def out_write_read (dev : Device) (s : Gpio) (pin state : Nat) : Except Nat Nat :=
  match GPIO_set_out dev s pin with
  | .error a => .error a
  | .ok s1 =>
    match GPIO_set_state dev s1 pin state with
    | .error a => .error a
    | .ok s2 =>
      match get_state s2 pin with
      | .error a => .error a
      | .ok (v, _) => .ok v

end Mastermind.Driver

/-! ## Display driver (`lcd.c`), byte write -/

namespace Mastermind.LCD

/-- Pin `LCD_RS`. -/
def LCD_RS : Nat := 25

/-- Pin `LCD_E`. -/
def LCD_E : Nat := 24

/-- Pin `LCD_D4`. -/
def LCD_D4 : Nat := 23

/-- Pin `LCD_D5`. -/
def LCD_D5 : Nat := 10

/-- Pin `LCD_D6`. -/
def LCD_D6 : Nat := 27

/-- Pin `LCD_D7`. -/
def LCD_D7 : Nat := 22

/-- What the display driver does to the outside, in program order: calls
`GPIO_set_state(pin, state)` and calls of `nanosleep`. -/
inductive Event where
  | set_state (pin state : Nat)
  | sleep (ns : Nat)
deriving DecidableEq, Repr

/-- Level that `GPIO_set_state(pin, state)` drives: high when `state` is non-zero. -/
def level (state : Nat) : Nat :=
  if state ≠ 0 then 1 else 0

/-- Static function `write_nibble(nibble)` of `lcd.c`, lines 213-219 (`uint8_t nibble`). -/
def write_nibble (nibble : Nat) : List Event :=
  let nibble := nibble % 2 ^ 8
  [ .set_state LCD_D4 (nibble &&& 0x01),
    .set_state LCD_D5 (nibble &&& 0x02),
    .set_state LCD_D6 (nibble &&& 0x04),
    .set_state LCD_D7 (nibble &&& 0x08) ]

/-- Static function `write(data)` of `lcd.c`, lines 197-211 (`uint8_t data`). -/
def write (data : Nat) : List Event :=
  let data := data % 2 ^ 8
  [.set_state LCD_E 1] ++ write_nibble (data >>> 4) ++ [.set_state LCD_E 0] ++
  [.set_state LCD_E 1] ++ write_nibble data ++ [.set_state LCD_E 0] ++
  [.sleep (Mastermind.US_TO_NS 50)]

/-- Function `LCD_write_data(data)` of `lcd.c`, lines 177-181. -/
def LCD_write_data (data : Nat) : List Event :=
  [.set_state LCD_RS 1] ++ write data

/-- Function `LCD_write_command(command)` of `lcd.c`, lines 183-187. -/
def LCD_write_command (command : Nat) : List Event :=
  [.set_state LCD_RS 0] ++ write command

/-- The number that four levels on D4 (least significant), D5, D6, D7 present to the display. -/
def nibble_of (d4 d5 d6 d7 : Nat) : Nat :=
  level d4 + 2 * level d5 + 4 * level d6 + 8 * level d7

/-- The two-phase write of `write(data)`, after the register-select write `rs`: enable high,
the four data lines, enable low, twice, then the 50 µs settle sleep. -/
def byte_write (rs h0 h1 h2 h3 l0 l1 l2 l3 : Nat) : List Event :=
  [ .set_state LCD_RS rs,
    .set_state LCD_E 1,
    .set_state LCD_D4 h0, .set_state LCD_D5 h1, .set_state LCD_D6 h2, .set_state LCD_D7 h3,
    .set_state LCD_E 0,
    .set_state LCD_E 1,
    .set_state LCD_D4 l0, .set_state LCD_D5 l1, .set_state LCD_D6 l2, .set_state LCD_D7 l3,
    .set_state LCD_E 0,
    .sleep 50000 ]

end Mastermind.LCD

/-! ## Game (`mastermind.c`): scoring, secret generation, settings

Arrays are lists read by index; `int` counters are integers (they are bounded by `size`, so no
wrap-around is involved).  Unchecked allocation failures are not modelled. -/

namespace Mastermind.Game

/-- The variables that `MM_calculate_matches` updates: the counters behind the pointers `exact`
and `approx`, and the array `counted`. -/
structure Matches where
  exact : Int
  approx : Int
  counted : List Bool
deriving DecidableEq, Repr

/-- The inner loop `for (size_t j = 0; j < size; j++)` of `MM_calculate_matches`, lines
153-161, for the guess entry `gi`, entered at index `j` with `k` iterations left.  The first
`j` with `gi == secret[j] && !counted[j]` is marked, `approx` is incremented, and the loop is
left (`break`). -/
def inner_loop (secret : List Int) (gi : Int) : Nat → Nat → Matches → Matches
  | 0, _, m => m
  | k + 1, j, m =>
    if gi = secret.getD j 0 ∧ m.counted.getD j false = false then
      { m with counted := m.counted.set j true, approx := m.approx + 1 }
    else inner_loop secret gi k (j + 1) m

/-- The body of the outer loop of `MM_calculate_matches` for index `i`, lines 137-162. -/
def outer_body (secret guess : List Int) (size i : Nat) (m : Matches) : Matches :=
  if guess.getD i 0 = secret.getD i 0 then
    let m1 := { m with exact := m.exact + 1 }
    let m2 := if m1.counted.getD i false = true then { m1 with approx := m1.approx - 1 } else m1
    { m2 with counted := m2.counted.set i true }
  else inner_loop secret (guess.getD i 0) size 0 m

/-- The outer loop `for (size_t i = 0; i < size; i++)` of `MM_calculate_matches`, entered at
index `i` with `k` iterations left. -/
def outer_loop (secret guess : List Int) (size : Nat) : Nat → Nat → Matches → Matches
  | 0, _, m => m
  | k + 1, i, m => outer_loop secret guess size k (i + 1) (outer_body secret guess size i m)

/-- Function `MM_calculate_matches(exact, approx, secret, guess, size)` of `mastermind.c`, lines
125-166.  The arguments `exact` and `approx` are the values the two counters hold at the call;
the result is the pair of their values at the return. -/
def MM_calculate_matches (exact approx : Int) (secret guess : List Int) (size : Nat) :
    Int × Int :=
  let m := outer_loop secret guess size size 0
    { exact := exact, approx := approx, counted := List.replicate size false }
  (m.exact, m.approx)

/-- The win test of `main`, line 388: `exact == number_of_numbers`. -/
def is_win (exact : Int) (number_of_numbers : Nat) : Bool :=
  decide (exact = (number_of_numbers : Int))

/-- Number of positions `i < size` with `guess[i] = secret[i]`. -/
def exact_positions (secret guess : List Int) (size : Nat) : Nat :=
  ((List.range size).filter (fun i => decide (guess.getD i 0 = secret.getD i 0))).length

/-- Sum over all values `v` of the smaller of the number of occurrences of `v` in the secret and
in the guess (a value that does not occur in the secret contributes 0). -/
def common_values (secret guess : List Int) : Nat :=
  (secret.dedup.map (fun v => min (secret.count v) (guess.count v))).sum

/-- The standard Mastermind number of approximate (wrong position) matches. -/
def standard_approx (secret guess : List Int) (size : Nat) : Int :=
  (common_values secret guess : Int) - (exact_positions secret guess size : Int)

/-- The game settings: the `uint8_t` globals `number_of_numbers`, `number_of_rounds`,
`max_random` and the flag `debug`. -/
structure Settings where
  number_of_numbers : Nat
  number_of_rounds : Nat
  max_random : Nat
  debug : Bool
deriving DecidableEq, Repr

/-- The initial values `NUMBERS_DEF`, `ROUNDS_DEF`, `MAX_DEF` and `debug = false`. -/
def Settings.initial : Settings :=
  { number_of_numbers := 3, number_of_rounds := 3, max_random := 3, debug := false }

/-- The global that the pointer `value` of a `struct setting` designates. -/
inductive Target where
  | number_of_numbers
  | max_random
  | number_of_rounds
deriving DecidableEq, Repr

/-- Assignment `*setting.value = v`. -/
def Settings.store (s : Settings) (t : Target) (v : Nat) : Settings :=
  match t with
  | .number_of_numbers => { s with number_of_numbers := v }
  | .max_random => { s with max_random := v }
  | .number_of_rounds => { s with number_of_rounds := v }

/-- Type `struct setting`: the argument prefix and the variable to change (the description
only appears in messages). -/
structure setting where
  arg : List Char
  value : Target
deriving DecidableEq, Repr

/-- Outcome of the library call `sscanf(arg, "%*c%*c%*c%hhu", value)`. -/
inductive Scan where
  | assigned (v : Nat)
  | no_match
  | unmodelled
deriving DecidableEq, Repr

/-- Value of a run of decimal digits, most significant first, continuing from `acc`. -/
def digits_value : List Char → Nat → Nat
  | [], acc => acc
  | c :: cs, acc => digits_value cs (acc * 10 + (c.toNat - 48))

/-- Library call `sscanf(arg, "%*c%*c%*c%hhu", value)` on the fragment used here: three
characters are skipped; if the next character is a decimal digit, the longest run of digits is
converted and, when its value fits an `unsigned char`, assigned (return value 1); if the next
character is neither a digit nor white space nor a sign, nothing matches (return value 0).
Leading white space, a sign, an empty rest and a value above 255 are outside this fragment. -/
def sscanf_hhu (arg : List Char) : Scan :=
  match arg.drop 3 with
  | [] => .unmodelled
  | c :: rest =>
    if c.isDigit then
      let n := digits_value ((c :: rest).takeWhile Char.isDigit) 0
      if n < 256 then .assigned n else .unmodelled
    else if c.isWhitespace ∨ c = '+' ∨ c = '-' then .unmodelled
    else .no_match

/-- Function `MM_parse_setting_arg(arg, setting)` of `mastermind.c`, lines 287-310: whether
the argument was parsed, and the settings afterwards; `none` when the scan is outside the
modelled fragment of `sscanf`. -/
def MM_parse_setting_arg (arg : List Char) (st : setting) (s : Settings) :
    Option (Bool × Settings) :=
  if arg.take 3 = st.arg ∧ arg.length > 3 then
    match sscanf_hhu arg with
    | .assigned v => some (true, s.store st.value v)
    | .no_match => some (false, s)
    | .unmodelled => none
  else some (false, s)

/-- The array `settings` of `MM_parse_settings`. -/
def settings : List setting :=
  [ { arg := ['-', 'n', '='], value := .number_of_numbers },
    { arg := ['-', 'c', '='], value := .max_random },
    { arg := ['-', 'r', '='], value := .number_of_rounds } ]

/-- The loop of `MM_parse_settings` over the settings that are left. -/
def parse_settings_loop (arg : List Char) : List setting → Settings → Option Settings
  | [], s => some s
  | st :: rest, s =>
    match MM_parse_setting_arg arg st s with
    | none => none
    | some (true, s1) => some s1
    | some (false, s1) => parse_settings_loop arg rest s1

/-- Function `MM_parse_settings(arg)` of `mastermind.c`, lines 315-332. -/
def MM_parse_settings (arg : List Char) (s : Settings) : Option Settings :=
  parse_settings_loop arg settings s

/-- Function `MM_enable_debugging()` of `mastermind.c`, lines 274-282. -/
def MM_enable_debugging (_s : Settings) : Settings :=
  { number_of_numbers := 3, number_of_rounds := 3, max_random := 3, debug := true }

/-- Function `MM_parse_args(argc, argv)` of `mastermind.c`, lines 337-352, on the arguments
after the program name. -/
def MM_parse_args : List (List Char) → Settings → Option Settings
  | [], s => some s
  | a :: rest, s =>
    if a = ['-', 'd'] then some (MM_enable_debugging s)
    else
      match MM_parse_settings a s with
      | none => none
      | some s1 => MM_parse_args rest s1

/-- The C expression `a % b` on non-negative `int` operands; `none` when `b` is 0 (division by
zero, undefined behaviour). -/
def c_mod (a b : Nat) : Option Nat :=
  if b = 0 then none else some (a % b)

/-- The loop of `MM_generate_secret`, entered at index `i` with `k` iterations left; `rand i`
is the value returned by the call of `rand()` in iteration `i`. -/
def generate_loop (max_random : Nat) (rand : Nat → Nat) : Nat → Nat → Option (List Nat)
  | 0, _ => some []
  | k + 1, i =>
    match c_mod (rand i) max_random with
    | none => none
    | some d =>
      match generate_loop max_random rand k (i + 1) with
      | none => none
      | some rest => some ((d + 1) :: rest)

/-- Function `MM_generate_secret()` of `mastermind.c`, lines 241-251: the generated secret, or
`none` when a digit computation divides by zero. -/
def MM_generate_secret (s : Settings) (rand : Nat → Nat) : Option (List Nat) :=
  generate_loop s.max_random rand s.number_of_numbers 0

/-- The argument `-c=` followed by the three decimal digits of `m`. -/
def max_arg (m : Nat) : List Char :=
  ['-', 'c', '=', Char.ofNat (48 + m / 100 % 10), Char.ofNat (48 + m / 10 % 10),
    Char.ofNat (48 + m % 10)]

end Mastermind.Game

namespace Mastermind

/-- Unfolding of the timeout loop without the termination evidence. -/
theorem timeout_loop_eq (pin max : Nat) (click_handler : Bool) (timeout probe_time : Nat)
    (i presses : Nat) (l : Line) :
    timeout_loop pin max click_handler timeout probe_time i presses l =
      if i < timeout then
        match GPIO_get_state pin l with
        | none => none
        | some (v, l1) =>
          if v = 0 then
            timeout_loop pin max click_handler timeout probe_time ((i + probe_time) % 2 ^ 32)
              presses (nanosleep probe_time l1)
          else
            match wait_while_high pin
                (call_click_handler click_handler (next_presses max presses) l1) with
            | none => none
            | some l3 =>
              timeout_loop pin max click_handler timeout probe_time ((0 + probe_time) % 2 ^ 32)
                (next_presses max presses) l3
      else some (presses, l) := by
  rw [timeout_loop]
  split
  · split
    · simp [*]
    · simp only [*]
      split
      · rfl
      · split <;> rename_i hw <;> rw [hw]
  · rfl

/-! ## Debounced read -/

/-- A low first sample: one raw read, no sleep, result 0. -/
theorem GPIO_get_state_low (pin : Nat) (rest : List Bool) (c : Nat) (po cl : List Nat) :
    GPIO_get_state pin ⟨false :: rest, c, po, cl⟩ = some (0, ⟨rest, c, po ++ [0], cl⟩) := by
  simp [GPIO_get_state, get_state]

/-- Two high samples: two raw reads separated by the bounce sleep, result 1. -/
theorem GPIO_get_state_high_high (pin : Nat) (rest : List Bool) (c : Nat) (po cl : List Nat) :
    GPIO_get_state pin ⟨true :: true :: rest, c, po, cl⟩ =
      some (1, ⟨rest, c + 30000000, po ++ [1], cl⟩) := by
  simp [GPIO_get_state, get_state, nanosleep, MS_TO_NS, BOUNCE_TIME_MS]

/-- A high sample followed by a low one: two raw reads, result 0. -/
theorem GPIO_get_state_high_low (pin : Nat) (rest : List Bool) (c : Nat) (po cl : List Nat) :
    GPIO_get_state pin ⟨true :: false :: rest, c, po, cl⟩ =
      some (0, ⟨rest, c + 30000000, po ++ [0], cl⟩) := by
  simp [GPIO_get_state, get_state, nanosleep, MS_TO_NS, BOUNCE_TIME_MS]

/-- What a returning debounced read leaves in the logs. -/
theorem GPIO_get_state_logs {pin : Nat} {l l1 : Line} {v : Nat}
    (h : GPIO_get_state pin l = some (v, l1)) :
    l1.polls = l.polls ++ [v] ∧ l1.clicks = l.clicks ∧ (v = 0 ∨ v = 1) := by
  obtain ⟨samples, c, po, cl⟩ := l
  match samples with
  | [] => simp [GPIO_get_state, get_state] at h
  | false :: rest =>
    rw [GPIO_get_state_low] at h
    cases h
    simp
  | true :: [] => simp [GPIO_get_state, get_state, nanosleep] at h
  | true :: false :: rest =>
    rw [GPIO_get_state_high_low] at h
    cases h
    simp
  | true :: true :: rest =>
    rw [GPIO_get_state_high_high] at h
    cases h
    simp

/-- C2. `GPIO_get_state` (debounced read), for every pin and every line: whenever the call
returns, its result is 0 or 1, and it is 1 (high) exactly when the first raw read was high and
the second raw read, made after the `BOUNCE_TIME_MS` sleep, was high too.  With two samples
available the call always returns, with result `a && b`; a high sample followed by a low one
gives 0, and a low first sample gives 0 without a second read and without sleeping. -/
theorem GPIO_get_state_debounced (pin : Nat) (l : Line) :
    (∀ v l1, GPIO_get_state pin l = some (v, l1) →
      (v = 0 ∨ v = 1) ∧
      (v = 1 ↔ ∃ rest, l.samples = true :: true :: rest ∧ l1.samples = rest ∧
        l1.clock = l.clock + MS_TO_NS BOUNCE_TIME_MS)) ∧
    (∀ a b rest, l.samples = a :: b :: rest →
      ∃ l1, GPIO_get_state pin l = some (if a = true ∧ b = true then 1 else 0, l1)) ∧
    (∀ rest, l.samples = true :: false :: rest →
      ∃ l1, GPIO_get_state pin l = some (0, l1) ∧ l1.samples = rest) ∧
    (∀ rest, l.samples = false :: rest →
      ∃ l1, GPIO_get_state pin l = some (0, l1) ∧ l1.samples = rest ∧ l1.clock = l.clock) := by
  obtain ⟨samples, c, po, cl⟩ := l
  refine ⟨?_, ?_, ?_, ?_⟩
  · intro v l1 h
    match samples with
    | [] => simp [GPIO_get_state, get_state] at h
    | false :: rest =>
      rw [GPIO_get_state_low] at h
      cases h
      simp
    | true :: [] => simp [GPIO_get_state, get_state, nanosleep] at h
    | true :: false :: rest =>
      rw [GPIO_get_state_high_low] at h
      cases h
      simp
    | true :: true :: rest =>
      rw [GPIO_get_state_high_high] at h
      cases h
      simp [MS_TO_NS, BOUNCE_TIME_MS]
  · intro a b rest hs
    simp only at hs
    subst hs
    cases a <;> cases b <;>
      simp [GPIO_get_state_low, GPIO_get_state_high_low, GPIO_get_state_high_high]
  · intro rest hs
    simp only at hs
    subst hs
    simp [GPIO_get_state_high_low]
  · intro rest hs
    simp only at hs
    subst hs
    simp [GPIO_get_state_low]

/-- C2, instance: on the samples high, low the debounced read of pin 19 returns 0. -/
theorem GPIO_get_state_debounced_witness :
    ∃ l1, GPIO_get_state 19 (Line.start [true, false]) = some (0, l1) ∧ l1.samples = [] :=
  (GPIO_get_state_debounced 19 (Line.start [true, false])).2.2.1 [] rfl

/-! ## Waiting for one click -/

/-- The press loop returns after a run of low debounced reads ended by one high read. -/
theorem wait_while_low_polls {pin : Nat} {l l1 : Line} (h : wait_while_low pin l = some l1) :
    (∃ k, l1.polls = l.polls ++ List.replicate k 0 ++ [1]) ∧ l1.clicks = l.clicks := by
  induction l using wait_while_low.induct pin with
  | case1 l hn => rw [wait_while_low_eq, hn] at h; simp at h
  | case2 l l2 hs ih =>
    rw [wait_while_low_eq, hs] at h
    simp only [if_true] at h
    obtain ⟨hp, hc, -⟩ := GPIO_get_state_logs hs
    obtain ⟨⟨k, hk⟩, hc2⟩ := ih h
    refine ⟨⟨k + 1, ?_⟩, by rw [hc2, hc]⟩
    rw [hk, hp, List.replicate_succ]
    simp
  | case3 l v l2 hs hv =>
    rw [wait_while_low_eq, hs] at h
    simp only [] at h
    rw [if_neg hv] at h
    obtain ⟨hp, hc, h01⟩ := GPIO_get_state_logs hs
    cases h
    refine ⟨⟨0, ?_⟩, hc⟩
    rcases h01 with h0 | h1
    · exact absurd h0 hv
    · rw [hp, h1]; simp

/-- The release loop returns after a run of high debounced reads ended by one low read. -/
theorem wait_while_high_polls {pin : Nat} {l l1 : Line} (h : wait_while_high pin l = some l1) :
    (∃ k, l1.polls = l.polls ++ List.replicate k 1 ++ [0]) ∧ l1.clicks = l.clicks := by
  induction l using wait_while_high.induct pin with
  | case1 l hn => rw [wait_while_high_eq, hn] at h; simp at h
  | case2 l v l2 hs hv ih =>
    rw [wait_while_high_eq, hs] at h
    simp only [] at h
    rw [if_pos hv] at h
    obtain ⟨hp, hc, h01⟩ := GPIO_get_state_logs hs
    obtain ⟨⟨k, hk⟩, hc2⟩ := ih h
    refine ⟨⟨k + 1, ?_⟩, by rw [hc2, hc]⟩
    rcases h01 with h0 | h1
    · exact absurd h0 hv
    · rw [hk, hp, h1, List.replicate_succ]
      simp
  | case3 l v l2 hs hv =>
    rw [wait_while_high_eq, hs] at h
    simp only [] at h
    rw [if_neg hv] at h
    obtain ⟨hp, hc, -⟩ := GPIO_get_state_logs hs
    cases h
    refine ⟨⟨0, ?_⟩, hc⟩
    have hv0 : v = 0 := by simpa using hv
    rw [hp, hv0]; simp

/-- What a returning `GPIO_get_button_press` has observed: low reads, then at least one high
read, then one low read; it calls no click handler and returns 1. -/
theorem GPIO_get_button_press_polls {pin : Nat} {l l2 : Line} {r : Nat}
    (h : GPIO_get_button_press pin l = some (r, l2)) :
    r = 1 ∧ l2.clicks = l.clicks ∧
      ∃ a b, l2.polls = l.polls ++ List.replicate a 0 ++ List.replicate (b + 1) 1 ++ [0] := by
  unfold GPIO_get_button_press at h
  split at h
  · simp at h
  · rename_i l1 h1
    split at h
    · simp at h
    · rename_i l3 h3
      cases h
      obtain ⟨⟨a, ha⟩, hc1⟩ := wait_while_low_polls h1
      obtain ⟨⟨b, hb⟩, hc2⟩ := wait_while_high_polls h3
      refine ⟨rfl, by rw [hc2, hc1], a, b, ?_⟩
      rw [hb, ha, List.replicate_succ]
      simp

/-- C3. `GPIO_get_button_press` (wait for click), for every pin: on every line on which it
returns, the last two debounced reads it made are a high read followed by a low read (after
`a` low reads and `b + 1` high reads in all), and it returns 1.  On the raw samples
low, low, high, high, low it returns having made exactly four debounced reads, with results
0, 0, 1, 0 (the third read takes the two high samples), and on no shorter prefix of these samples
does it return, in particular not on the four samples used by the first three reads. -/
theorem GPIO_get_button_press_high_then_low (pin : Nat) :
    (∀ l r l2, GPIO_get_button_press pin l = some (r, l2) →
      r = 1 ∧ ∃ before, l2.polls = l.polls ++ before ++ [1, 0]) ∧
    GPIO_get_button_press pin (Line.start [false, false, true, true, false]) =
      some (1, { samples := [], clock := 30000000, polls := [0, 0, 1, 0], clicks := [] }) ∧
    (∀ k, k < 5 →
      GPIO_get_button_press pin (Line.start (List.take k [false, false, true, true, false]))
        = none) := by
  refine ⟨?_, ?_, ?_⟩
  · intro l r l2 h
    obtain ⟨hr, -, a, b, hp⟩ := GPIO_get_button_press_polls h
    refine ⟨hr, List.replicate a 0 ++ List.replicate b 1, ?_⟩
    rw [hp, List.replicate_succ']
    simp
  · simp [GPIO_get_button_press, wait_while_low, wait_while_high, GPIO_get_state, get_state,
      nanosleep, Line.start, MS_TO_NS, BOUNCE_TIME_MS]
  · intro k hk
    interval_cases k <;>
      simp [GPIO_get_button_press, wait_while_low, wait_while_high, GPIO_get_state, get_state,
        nanosleep, Line.start, MS_TO_NS, BOUNCE_TIME_MS]

/-- C3, instance: the general part applied to the samples low, low, high, high, low. -/
theorem GPIO_get_button_press_high_then_low_witness :
    ∃ before, ({ samples := [], clock := 30000000, polls := [0, 0, 1, 0], clicks := [] } :
      Line).polls = (Line.start [false, false, true, true, false]).polls ++ before ++ [1, 0] :=
  ((GPIO_get_button_press_high_then_low 19).1 _ _ _
    (GPIO_get_button_press_high_then_low 19).2.1).2

/-! ## Counting clicks -/

/-- Calling a non-null handler appends its argument to the log of handler calls. -/
theorem call_click_handler_clicks (presses : Nat) (l : Line) :
    (call_click_handler true presses l).clicks = l.clicks ++ [presses] := by
  simp [call_click_handler]

/-- Invariant of the timeout loop, with a non-null handler: the loop only appends to the log of
handler calls, every appended value is obtained from the entry value of `presses` by repeated
`next_presses`, hence satisfies any property `Inv` that holds at entry and is kept by
`next_presses`, and the value returned is the last one passed to the handler (the entry value
when the handler was not called). -/
theorem timeout_loop_clicks (Inv : Nat → Prop) (pin max timeout probe_time : Nat)
    (hnext : ∀ p, Inv p → Inv (next_presses max p)) :
    ∀ (n i presses : Nat) (l : Line), l.samples.length ≤ n → Inv presses →
      ∀ r l1, timeout_loop pin max true timeout probe_time i presses l = some (r, l1) →
        ∃ more, l1.clicks = l.clicks ++ more ∧ (∀ x ∈ more, Inv x) ∧ Inv r ∧
          r = (presses :: more).getLast (List.cons_ne_nil _ _) := by
  intro n
  induction n with
  | zero =>
    intro i presses l hl hinv r l1 h
    rw [timeout_loop_eq] at h
    split at h
    · have hs : l.samples = [] := List.length_eq_zero.mp (Nat.le_zero.mp hl)
      have hg : GPIO_get_state pin l = none := by
        simp [GPIO_get_state, get_state, hs]
      rw [hg] at h
      simp at h
    · cases h
      exact ⟨[], by simp, by simp, hinv, rfl⟩
  | succ n ih =>
    intro i presses l hl hinv r l1 h
    rw [timeout_loop_eq] at h
    split at h
    · split at h
      · simp at h
      · rename_i v l2 hg
        have hlt := GPIO_get_state_samples_lt hg
        obtain ⟨-, hc2, -⟩ := GPIO_get_state_logs hg
        split at h
        · obtain ⟨more, hm, hall, hr, hlast⟩ :=
            ih _ presses (nanosleep probe_time l2) (by simp only [nanosleep]; omega) hinv r l1 h
          refine ⟨more, ?_, hall, hr, hlast⟩
          rw [hm]
          simp only [nanosleep]
          rw [hc2]
        · split at h
          · simp at h
          · rename_i l3 hw
            have hle := wait_while_high_samples_le hw
            rw [call_click_handler_samples] at hle
            obtain ⟨-, hc3⟩ := wait_while_high_polls hw
            rw [call_click_handler_clicks] at hc3
            obtain ⟨more, hm, hall, hr, hlast⟩ :=
              ih _ (next_presses max presses) l3 (by omega) (hnext _ hinv) r l1 h
            refine ⟨next_presses max presses :: more, ?_, ?_, hr, ?_⟩
            · rw [hm, hc3, hc2]
              simp
            · intro x hx
              rcases List.mem_cons.mp hx with hx | hx
              · rw [hx]; exact hnext _ hinv
              · exact hall x hx
            · rw [hlast]
              rw [List.getLast_cons (List.cons_ne_nil _ _)]
    · cases h
      exact ⟨[], by simp, by simp, hinv, rfl⟩

/-- Invariant of `GPIO_get_button_presses` with a non-null handler: the handler is first called
with 1, every later argument and the returned value satisfy any property that holds of 1 and is
kept by `next_presses`, and the returned value is the last argument passed to the handler. -/
theorem GPIO_get_button_presses_clicks (Inv : Nat → Prop) (pin max : Nat)
    (h1 : Inv 1) (hnext : ∀ p, Inv p → Inv (next_presses max p))
    {l l1 : Line} {r : Nat} (h : GPIO_get_button_presses pin max true l = some (r, l1)) :
    ∃ more, l1.clicks = l.clicks ++ 1 :: more ∧ (∀ x ∈ more, Inv x) ∧ Inv r ∧
      r = (1 :: more).getLast (List.cons_ne_nil _ _) := by
  unfold GPIO_get_button_presses at h
  split at h
  · simp at h
  · rename_i r0 l2 hp
    obtain ⟨-, hc, -⟩ := GPIO_get_button_press_polls hp
    obtain ⟨more, hm, hall, hr, hlast⟩ :=
      timeout_loop_clicks Inv pin max _ _ hnext _ _ 1 _ (le_refl _) h1 r l1 h
    refine ⟨more, ?_, hall, hr, hlast⟩
    rw [hm, call_click_handler_clicks, hc]
    simp

/-- The body of `GPIO_get_button_presses` with its constants evaluated: a timeout of
2 000 000 000 ns probed every 100 000 000 ns. -/
theorem GPIO_get_button_presses_eq (pin max : Nat) (click_handler : Bool) (l : Line) :
    GPIO_get_button_presses pin max click_handler l =
      match GPIO_get_button_press pin l with
      | none => none
      | some (_, l1) =>
        timeout_loop pin max click_handler 2000000000 100000000 0 1
          (call_click_handler click_handler 1 l1) := by
  rfl

/-- Low probes in the timeout loop: entered with `i = j * probe_time`, the loop reads `k` low
samples, sleeping one probe interval after each, as long as `j + k ≤ 20`. -/
theorem timeout_loop_low_probes (pin max : Nat) (click_handler : Bool) (presses : Nat)
    (rest : List Bool) (cl : List Nat) :
    ∀ (k j c : Nat) (po : List Nat), j + k ≤ 20 →
      timeout_loop pin max click_handler 2000000000 100000000 (j * 100000000) presses
          ⟨List.replicate k false ++ rest, c, po, cl⟩ =
        timeout_loop pin max click_handler 2000000000 100000000 ((j + k) * 100000000) presses
          ⟨rest, c + k * 100000000, po ++ List.replicate k 0, cl⟩ := by
  intro k
  induction k with
  | zero => intro j c po _; simp
  | succ k ih =>
    intro j c po hjk
    conv_lhs => rw [timeout_loop_eq]
    have hlt : j * 100000000 < 2000000000 := by omega
    have hi : (j * 100000000 + 100000000) % 2 ^ 32 = (j + 1) * 100000000 := by omega
    rw [if_pos hlt, List.replicate_succ, List.cons_append, GPIO_get_state_low]
    simp only [if_true, nanosleep, hi]
    rw [ih (j + 1) (c + 100000000) (po ++ [0]) (by omega)]
    have e1 : j + 1 + k = j + (k + 1) := by omega
    have e2 : c + 100000000 + k * 100000000 = c + (k + 1) * 100000000 := by omega
    rw [e1, e2, List.append_assoc, List.replicate_succ]
    rfl

/-- The timeout loop returns as soon as `i` has reached the timeout. -/
theorem timeout_loop_expired (pin max : Nat) (click_handler : Bool) (presses : Nat) (l : Line) :
    timeout_loop pin max click_handler 2000000000 100000000 (20 * 100000000) presses l =
      some (presses, l) := by
  rw [timeout_loop_eq]
  simp

/-- The timeout loop is blocked when it needs a sample and none is left. -/
theorem timeout_loop_blocked (pin max : Nat) (click_handler : Bool) (presses j c : Nat)
    (po cl : List Nat) (hj : j < 20) :
    timeout_loop pin max click_handler 2000000000 100000000 (j * 100000000) presses
      ⟨[], c, po, cl⟩ = none := by
  rw [timeout_loop_eq]
  have hlt : j * 100000000 < 2000000000 := by omega
  rw [if_pos hlt]
  simp [GPIO_get_state, get_state]

/-- One clean click in the timeout loop, with a non-null handler: `presses` is advanced, the
handler is called, and after the release the loop continues with `i = probe_time`, not 0. -/
theorem timeout_loop_one_click (pin max presses : Nat) (rest : List Bool)
    (j c : Nat) (po cl : List Nat) (hj : j < 20) :
    timeout_loop pin max true 2000000000 100000000 (j * 100000000) presses
        ⟨one_click ++ rest, c, po, cl⟩ =
      timeout_loop pin max true 2000000000 100000000 (1 * 100000000)
        (next_presses max presses)
        ⟨rest, c + 30000000, po ++ [1, 0], cl ++ [next_presses max presses]⟩ := by
  conv_lhs => rw [timeout_loop_eq]
  have hlt : j * 100000000 < 2000000000 := by omega
  rw [if_pos hlt]
  simp only [one_click, List.cons_append, List.nil_append, GPIO_get_state_high_high]
  simp only [call_click_handler, if_true]
  rw [wait_while_high_eq, GPIO_get_state_low]
  simp

/-- The first click of `GPIO_get_button_press` on a clean click. -/
theorem GPIO_get_button_press_one_click (pin : Nat) (rest : List Bool) (c : Nat)
    (po cl : List Nat) :
    GPIO_get_button_press pin ⟨one_click ++ rest, c, po, cl⟩ =
      some (1, ⟨rest, c + 30000000, po ++ [1, 0], cl⟩) := by
  unfold GPIO_get_button_press
  rw [wait_while_low_eq]
  simp only [one_click, List.cons_append, List.nil_append, GPIO_get_state_high_high]
  simp only [one_ne_zero, if_false]
  rw [wait_while_high_eq, GPIO_get_state_low]
  simp

/-- Several clean clicks in the timeout loop, with a non-null handler: `presses` goes through
the values of `click_values`, each passed to the handler. -/
theorem timeout_loop_n_clicks (pin max : Nat) (rest : List Bool) :
    ∀ (k j presses c : Nat) (po cl : List Nat), j < 20 →
      ∃ c1 po1,
        timeout_loop pin max true 2000000000 100000000 (j * 100000000) presses
            ⟨n_clicks (k + 1) ++ rest, c, po, cl⟩ =
          timeout_loop pin max true 2000000000 100000000 (1 * 100000000)
            ((next_presses max)^[k + 1] presses)
            ⟨rest, c1, po1, cl ++ click_values max presses (k + 1)⟩ := by
  intro k
  induction k with
  | zero =>
    intro j presses c po cl hj
    refine ⟨c + 30000000, po ++ [1, 0], ?_⟩
    simp only [n_clicks, List.append_nil, zero_add, Function.iterate_one, click_values]
    exact timeout_loop_one_click pin max presses rest j c po cl hj
  | succ k ih =>
    intro j presses c po cl hj
    obtain ⟨c1, po1, h⟩ := ih 1 (next_presses max presses) (c + 30000000) (po ++ [1, 0])
      (cl ++ [next_presses max presses]) (by omega)
    refine ⟨c1, po1, ?_⟩
    have e : n_clicks (k + 1 + 1) ++ rest = one_click ++ (n_clicks (k + 1) ++ rest) := by
      rw [n_clicks, List.append_assoc]
    rw [e, timeout_loop_one_click pin max presses _ j c po cl hj, h]
    rw [Function.iterate_succ_apply]
    have e2 : click_values max presses (k + 1 + 1) =
        next_presses max presses :: click_values max (next_presses max presses) (k + 1) := rfl
    rw [e2]
    simp

/-- C4. `GPIO_get_button_presses`, for every `max` (so for each of 0, ..., 255) and every pin,
with a non-null handler: on every line on which the function returns, the first call of the
handler receives 1, and when that call is the only one (no further press was detected) the
function returns 1.  Such a return does happen: whenever the first click completes and the next
20 samples are low, the function returns 1 after 20 probe sleeps, the handler having been called
once, with 1. -/
theorem GPIO_get_button_presses_first_click (pin max : Nat) :
    (∀ l r l1, GPIO_get_button_presses pin max true l = some (r, l1) →
      ∃ more, l1.clicks = l.clicks ++ 1 :: more ∧ (more = [] → r = 1)) ∧
    (∀ l l0 rest, GPIO_get_button_press pin l = some (1, l0) →
      l0.samples = List.replicate 20 false ++ rest →
      GPIO_get_button_presses pin max true l =
        some (1, ⟨rest, l0.clock + 20 * 100000000, l0.polls ++ List.replicate 20 0,
          l.clicks ++ [1]⟩)) := by
  refine ⟨?_, ?_⟩
  · intro l r l1 h
    obtain ⟨more, hm, -, -, hlast⟩ :=
      GPIO_get_button_presses_clicks (fun _ => True) pin max trivial (fun _ _ => trivial) h
    refine ⟨more, hm, ?_⟩
    intro he
    subst he
    exact hlast
  · intro l l0 rest hp hs
    obtain ⟨-, hc, -⟩ := GPIO_get_button_press_polls hp
    rw [GPIO_get_button_presses_eq, hp]
    obtain ⟨s0, c0, po0, cl0⟩ := l0
    simp only at hs hc
    subst hs
    subst hc
    simp only [call_click_handler, if_true]
    have h := timeout_loop_low_probes pin max true 1 rest (l.clicks ++ [1]) 20 0 c0 po0
      (by omega)
    simp only [zero_mul, zero_add] at h
    rw [h, timeout_loop_expired]

/-- C4, instance with `max = 0`: one clean click followed by 20 low samples returns 1, the
handler having been called once, with 1. -/
theorem GPIO_get_button_presses_first_click_witness :
    GPIO_get_button_presses 19 0 true (Line.start (one_click ++ (List.replicate 20 false ++ [])))
      = some (1, ⟨[], 30000000 + 20 * 100000000, [1, 0] ++ List.replicate 20 0, [1]⟩) :=
  (GPIO_get_button_presses_first_click 19 0).2
    (Line.start (one_click ++ (List.replicate 20 false ++ [])))
    ⟨List.replicate 20 false ++ [], 30000000, [1, 0], []⟩ []
    (GPIO_get_button_press_one_click 19 (List.replicate 20 false ++ []) 0 [] []) rfl

/-- `GPIO_get_button_presses` on a line that starts with a clean click: the handler is called
with 1 and the timeout loop is entered with `i = 0`. -/
theorem GPIO_get_button_presses_one_click (pin max : Nat) (rest : List Bool) :
    GPIO_get_button_presses pin max true (Line.start (one_click ++ rest)) =
      timeout_loop pin max true 2000000000 100000000 (0 * 100000000) 1
        ⟨rest, 30000000, [1, 0], [1]⟩ := by
  rw [GPIO_get_button_presses_eq, Line.start, GPIO_get_button_press_one_click]
  simp [call_click_handler]

/-- C6. `GPIO_get_button_presses`, the timeout budget after a press, for every pin and `max`.
After the first click the function is still waiting after 19 low probes and returns after the
20th, 20 * 100 ms = 2 s of probe sleep after the release.  After a second click it returns
after only 19 low probes, 1.9 s of probe sleep after the release: the press branch sets
`i = 0` and the loop increment `i += probe_time` is applied before the next probe. -/
theorem timeout_budget_after_press (pin max : Nat) :
    GPIO_get_button_presses pin max true (Line.start (one_click ++ List.replicate 19 false))
      = none ∧
    GPIO_get_button_presses pin max true (Line.start (one_click ++ List.replicate 20 false))
      = some (1, ⟨[], 30000000 + 20 * 100000000, [1, 0] ++ List.replicate 20 0, [1]⟩) ∧
    GPIO_get_button_presses pin max true
        (Line.start (one_click ++ (one_click ++ List.replicate 19 false)))
      = some (next_presses max 1, ⟨[], 30000000 + 30000000 + 19 * 100000000,
          [1, 0] ++ [1, 0] ++ List.replicate 19 0, [1] ++ [next_presses max 1]⟩) := by
  refine ⟨?_, ?_, ?_⟩
  · rw [GPIO_get_button_presses_one_click, ← List.append_nil (List.replicate 19 false),
      timeout_loop_low_probes pin max true 1 [] [1] 19 0 _ _ (by omega)]
    exact timeout_loop_blocked pin max true 1 19 _ _ _ (by omega)
  · rw [GPIO_get_button_presses_one_click, ← List.append_nil (List.replicate 20 false),
      timeout_loop_low_probes pin max true 1 [] [1] 20 0 _ _ (by omega)]
    exact timeout_loop_expired pin max true 1 _
  · rw [GPIO_get_button_presses_one_click,
      timeout_loop_one_click pin max 1 _ 0 _ _ _ (by omega),
      ← List.append_nil (List.replicate 19 false),
      timeout_loop_low_probes pin max true _ [] _ 19 1 _ _ (by omega)]
    exact timeout_loop_expired pin max true _ _

/-- C1. `GPIO_get_button_presses` with `max = 3`, for every pin, on three clean clicks followed
by 25 low samples (2.5 s).  When the third press comes 19 low probes (1.9 s, less than the 2 s
timeout) after the release of the second, the function has already returned 2: the handler was
called twice, with 1 and 2, and the third click is left unread.  When it comes 18 low probes
after that release it is counted: the handler is called with 1, 2, 3 and the function returns 3.
After the first click a press that comes 19 low probes after the release is still counted. -/
theorem third_press_after_19_probes_not_counted (pin : Nat) :
    GPIO_get_button_presses pin 3 true
        (Line.start (one_click ++ (one_click ++ (List.replicate 19 false ++
          (one_click ++ List.replicate 25 false)))))
      = some (2, ⟨one_click ++ List.replicate 25 false, 30000000 + 30000000 + 19 * 100000000,
          [1, 0] ++ [1, 0] ++ List.replicate 19 0, [1, 2]⟩) ∧
    GPIO_get_button_presses pin 3 true
        (Line.start (one_click ++ (one_click ++ (List.replicate 18 false ++
          (one_click ++ (List.replicate 19 false ++ List.replicate 6 false))))))
      = some (3, ⟨List.replicate 6 false,
          30000000 + 30000000 + 18 * 100000000 + 30000000 + 19 * 100000000,
          [1, 0] ++ [1, 0] ++ List.replicate 18 0 ++ [1, 0] ++ List.replicate 19 0,
          [1, 2, 3]⟩) ∧
    GPIO_get_button_presses pin 3 true
        (Line.start (one_click ++ (List.replicate 19 false ++
          (one_click ++ (List.replicate 19 false ++ List.replicate 6 false)))))
      = some (2, ⟨List.replicate 6 false,
          30000000 + 19 * 100000000 + 30000000 + 19 * 100000000,
          [1, 0] ++ List.replicate 19 0 ++ [1, 0] ++ List.replicate 19 0, [1, 2]⟩) := by
  refine ⟨?_, ?_, ?_⟩
  · rw [GPIO_get_button_presses_one_click,
      timeout_loop_one_click pin 3 1 _ 0 _ _ _ (by omega),
      timeout_loop_low_probes pin 3 true _ _ _ 19 1 _ _ (by omega)]
    exact timeout_loop_expired pin 3 true _ _
  · rw [GPIO_get_button_presses_one_click,
      timeout_loop_one_click pin 3 1 _ 0 _ _ _ (by omega),
      timeout_loop_low_probes pin 3 true _ _ _ 18 1 _ _ (by omega),
      timeout_loop_one_click pin 3 _ _ 19 _ _ _ (by omega),
      timeout_loop_low_probes pin 3 true _ _ _ 19 1 _ _ (by omega)]
    exact timeout_loop_expired pin 3 true _ _
  · rw [GPIO_get_button_presses_one_click,
      timeout_loop_low_probes pin 3 true _ _ _ 19 0 _ _ (by omega),
      timeout_loop_one_click pin 3 _ _ 19 _ _ _ (by omega),
      timeout_loop_low_probes pin 3 true _ _ _ 19 1 _ _ (by omega)]
    exact timeout_loop_expired pin 3 true _ _

/-- The release loop on a press that is still held for `b` debounced reads. -/
theorem wait_while_high_held (pin : Nat) (rest : List Bool) (cl : List Nat) :
    ∀ (b c : Nat) (po : List Nat), ∃ c1 po1,
      wait_while_high pin ⟨List.replicate (2 * b) true ++ false :: rest, c, po, cl⟩ =
        some ⟨rest, c1, po1, cl⟩ := by
  intro b
  induction b with
  | zero =>
    intro c po
    refine ⟨c, po ++ [0], ?_⟩
    rw [wait_while_high_eq]
    simp [GPIO_get_state_low]
  | succ b ih =>
    intro c po
    obtain ⟨c1, po1, h⟩ := ih (c + 30000000) (po ++ [1])
    refine ⟨c1, po1, ?_⟩
    have e : List.replicate (2 * (b + 1)) true ++ false :: rest =
        true :: true :: (List.replicate (2 * b) true ++ false :: rest) := by
      have : 2 * (b + 1) = 2 * b + 1 + 1 := by omega
      rw [this, List.replicate_succ, List.replicate_succ]
      rfl
    rw [e, wait_while_high_eq, GPIO_get_state_high_high]
    simpa using h

/-- The press loop on `a` low samples followed by two high samples. -/
theorem wait_while_low_lows (pin : Nat) (rest : List Bool) (cl : List Nat) :
    ∀ (a c : Nat) (po : List Nat), ∃ c1 po1,
      wait_while_low pin ⟨List.replicate a false ++ true :: true :: rest, c, po, cl⟩ =
        some ⟨rest, c1, po1, cl⟩ := by
  intro a
  induction a with
  | zero =>
    intro c po
    refine ⟨c + 30000000, po ++ [1], ?_⟩
    rw [wait_while_low_eq]
    simp [GPIO_get_state_high_high]
  | succ a ih =>
    intro c po
    obtain ⟨c1, po1, h⟩ := ih c (po ++ [0])
    refine ⟨c1, po1, ?_⟩
    rw [List.replicate_succ, List.cons_append, wait_while_low_eq, GPIO_get_state_low]
    simpa using h

/-- The first click, after `a` low samples and held for `b + 1` debounced reads. -/
theorem GPIO_get_button_press_held (pin a b : Nat) (rest : List Bool) (c : Nat)
    (po cl : List Nat) :
    ∃ c1 po1, GPIO_get_button_press pin
        ⟨List.replicate a false ++ (held_click b ++ rest), c, po, cl⟩ =
      some (1, ⟨rest, c1, po1, cl⟩) := by
  have e : held_click b ++ rest =
      true :: true :: (List.replicate (2 * b) true ++ false :: rest) := by
    have : 2 * b + 2 = 2 * b + 1 + 1 := by omega
    rw [held_click, this, List.replicate_succ, List.replicate_succ]
    simp
  obtain ⟨c1, po1, h1⟩ := wait_while_low_lows pin
    (List.replicate (2 * b) true ++ false :: rest) cl a c po
  obtain ⟨c2, po2, h2⟩ := wait_while_high_held pin rest cl b c1 po1
  refine ⟨c2, po2, ?_⟩
  rw [e, GPIO_get_button_press, h1]
  simp only []
  rw [h2]

/-- A held press in the timeout loop, with a non-null handler. -/
theorem timeout_loop_held_click (pin max presses b : Nat) (rest : List Bool)
    (j c : Nat) (po cl : List Nat) (hj : j < 20) :
    ∃ c1 po1,
      timeout_loop pin max true 2000000000 100000000 (j * 100000000) presses
          ⟨held_click b ++ rest, c, po, cl⟩ =
        timeout_loop pin max true 2000000000 100000000 (1 * 100000000)
          (next_presses max presses) ⟨rest, c1, po1, cl ++ [next_presses max presses]⟩ := by
  have e : held_click b ++ rest =
      true :: true :: (List.replicate (2 * b) true ++ false :: rest) := by
    have : 2 * b + 2 = 2 * b + 1 + 1 := by omega
    rw [held_click, this, List.replicate_succ, List.replicate_succ]
    simp
  obtain ⟨c2, po2, h2⟩ := wait_while_high_held pin rest (cl ++ [next_presses max presses]) b
    (c + 30000000) (po ++ [1])
  refine ⟨c2, po2, ?_⟩
  conv_lhs => rw [timeout_loop_eq]
  have hlt : j * 100000000 < 2000000000 := by omega
  rw [if_pos hlt, e, GPIO_get_state_high_high]
  simp only [call_click_handler, if_true, one_ne_zero, if_false]
  rw [h2]
  simp

/-- A sequence of presses whose gaps are all polled, in the timeout loop with a non-null
handler: every press is counted. -/
theorem timeout_loop_spaced_clicks (pin max : Nat) (rest : List Bool) :
    ∀ (ps : List (Nat × Nat)) (j presses c : Nat) (po cl : List Nat), j ≤ 1 →
      polled_gaps j ps = true →
      ∃ c1 po1,
        timeout_loop pin max true 2000000000 100000000 (j * 100000000) presses
            ⟨spaced_clicks ps ++ rest, c, po, cl⟩ =
          timeout_loop pin max true 2000000000 100000000
            ((if ps = [] then j else 1) * 100000000)
            ((next_presses max)^[ps.length] presses)
            ⟨rest, c1, po1, cl ++ click_values max presses ps.length⟩ := by
  intro ps
  induction ps with
  | nil =>
    intro j presses c po cl _ _
    exact ⟨c, po, by simp [spaced_clicks, click_values]⟩
  | cons p ps ih =>
    intro j presses c po cl hj hg
    obtain ⟨gap, hold⟩ := p
    simp only [polled_gaps, Bool.and_eq_true, decide_eq_true_eq] at hg
    obtain ⟨hgap, hps⟩ := hg
    obtain ⟨c1, po1, h1⟩ := timeout_loop_held_click pin max presses hold
      (spaced_clicks ps ++ rest) (j + gap) (c + gap * 100000000) (po ++ List.replicate gap 0) cl
      (by omega)
    obtain ⟨c2, po2, h2⟩ := ih 1 (next_presses max presses) c1 po1
      (cl ++ [next_presses max presses]) (le_refl _) hps
    refine ⟨c2, po2, ?_⟩
    have e : spaced_clicks ((gap, hold) :: ps) ++ rest =
        List.replicate gap false ++ (held_click hold ++ (spaced_clicks ps ++ rest)) := by
      simp [spaced_clicks]
    rw [e, timeout_loop_low_probes pin max true presses _ cl gap j c po (by omega), h1, h2]
    have e2 : click_values max presses ((gap, hold) :: ps).length =
        next_presses max presses :: click_values max (next_presses max presses) ps.length := rfl
    rw [e2, List.length_cons, Function.iterate_succ_apply]
    by_cases hnil : ps = []
    · simp [hnil]
    · simp [hnil]

/-- The counter values with `max = 3`, started from `a % 3 + 1`. -/
theorem click_values_three (m : Nat) :
    ∀ a, click_values 3 (a % 3 + 1) m = (List.range m).map (fun k => (a + 1 + k) % 3 + 1) ∧
      (next_presses 3)^[m] (a % 3 + 1) = (a + m) % 3 + 1 := by
  have hn : ∀ a, next_presses 3 (a % 3 + 1) = (a + 1) % 3 + 1 := by
    intro a
    have h1 : (a % 3 + 1 + 1) % 2 ^ 8 = a % 3 + 2 := by omega
    simp only [next_presses, h1]
    split <;> omega
  induction m with
  | zero => intro a; simp [click_values]
  | succ m ih =>
    intro a
    obtain ⟨h1, h2⟩ := ih (a + 1)
    refine ⟨?_, ?_⟩
    · rw [click_values, hn, h1, List.range_succ_eq_map, List.map_cons, List.map_map]
      congr 1
      apply List.map_congr_left
      intro k _
      simp only [Function.comp, Nat.succ_eq_add_one]
      congr 2
      omega
    · rw [Function.iterate_succ_apply, hn, h2]
      congr 2
      omega

/-- The wrap-around of `GPIO_get_button_presses` with `max = 3` on every input whose presses
are all polled.  After `a` low samples, a first click, further presses `ps` (gaps and holds)
with `polled_gaps 0 ps = true` (the first gap at most 19 low probes, every later gap at most 18), and
20 low samples, the handler has been called exactly `ps.length + 1` times, call number `k + 1`
receiving `k % 3 + 1`, and the function returns the value of the last call. -/
theorem wrap_around_when_polled (pin a b : Nat) (ps : List (Nat × Nat)) (tail : List Bool)
    (hps : polled_gaps 0 ps = true) :
    ∃ l1, GPIO_get_button_presses pin 3 true
        (Line.start (List.replicate a false ++ (held_click b ++
          (spaced_clicks ps ++ (List.replicate 20 false ++ tail))))) =
        some (ps.length % 3 + 1, l1) ∧
      l1.clicks = (List.range (ps.length + 1)).map (fun k => k % 3 + 1) := by
  obtain ⟨c1, po1, h1⟩ := GPIO_get_button_press_held pin a b
    (spaced_clicks ps ++ (List.replicate 20 false ++ tail)) 0 [] []
  obtain ⟨c2, po2, h2⟩ := timeout_loop_spaced_clicks pin 3 (List.replicate 20 false ++ tail)
    ps 0 1 c1 po1 [1] (by omega) hps
  obtain ⟨hv, hi⟩ := click_values_three ps.length 0
  have hc : [1] ++ click_values 3 1 ps.length =
      (List.range (ps.length + 1)).map (fun k => k % 3 + 1) := by
    have := hv
    simp only [Nat.zero_mod, zero_add] at this
    rw [this, List.range_succ_eq_map]
    simp only [List.singleton_append, List.map_cons, List.map_map, Nat.zero_mod, zero_add]
    congr 1
    apply List.map_congr_left
    intro k _
    simp only [Function.comp, Nat.succ_eq_add_one]
    congr 2
    omega
  have hi' : (next_presses 3)^[ps.length] 1 = ps.length % 3 + 1 := by
    have := hi
    simpa using this
  rw [GPIO_get_button_presses_eq, Line.start, h1]
  simp only [call_click_handler, if_true, List.nil_append]
  have h0 : (0 : Nat) = 0 * 100000000 := by omega
  rw [h0, h2, hc, hi']
  by_cases hnil : ps = []
  · simp only [hnil, if_true]
    rw [timeout_loop_low_probes pin 3 true _ tail _ 20 0 _ _ (by omega)]
    exact ⟨_, timeout_loop_expired pin 3 true _ _, rfl⟩
  · simp only [hnil, if_false]
    have e : List.replicate 20 false ++ tail = List.replicate 19 false ++ (false :: tail) := by
      simp [List.replicate]
    rw [e, timeout_loop_low_probes pin 3 true _ (false :: tail) _ 19 1 _ _ (by omega)]
    exact ⟨_, timeout_loop_expired pin 3 true _ _, rfl⟩

/-- Instance of the wrap-around: five clean clicks, every gap polled, give 1, 2, 3, 1, 2 and
the function returns 2. -/
theorem wrap_around_five_presses :
    ∃ l1, GPIO_get_button_presses 19 3 true
        (Line.start (List.replicate 2 false ++ (held_click 0 ++
          (spaced_clicks [(19, 0), (18, 1), (0, 0), (5, 2)] ++
            (List.replicate 20 false ++ []))))) = some (2, l1) ∧
      l1.clicks = [1, 2, 3, 1, 2] :=
  wrap_around_when_polled 19 2 0 [(19, 0), (18, 1), (0, 0), (5, 2)] [] (by decide)

/-- For `max` from 1 to 254 the counter stays in range: with a non-null handler, on every line
on which `GPIO_get_button_presses` returns, every value passed to the handler and the value
returned is at least 1 and at most `max`. -/
theorem presses_in_range (pin max : Nat) (h1 : 1 ≤ max) (h254 : max ≤ 254)
    {l l1 : Line} {r : Nat} (h : GPIO_get_button_presses pin max true l = some (r, l1)) :
    ∃ calls, l1.clicks = l.clicks ++ calls ∧ (∀ x ∈ calls, 1 ≤ x ∧ x ≤ max) ∧
      1 ≤ r ∧ r ≤ max := by
  obtain ⟨more, hm, hall, hr, -⟩ :=
    GPIO_get_button_presses_clicks (fun p => 1 ≤ p ∧ p ≤ max) pin max ⟨le_refl _, h1⟩
      (by
        intro p hp
        have hp' : (p + 1) % 2 ^ 8 = p + 1 := by omega
        simp only [next_presses, hp']
        split <;> omega) h
  refine ⟨1 :: more, hm, ?_, hr⟩
  intro x hx
  rcases List.mem_cons.mp hx with hx | hx
  · rw [hx]; exact ⟨le_refl _, h1⟩
  · exact hall x hx

set_option maxRecDepth 100000 in
/-- C5. `GPIO_get_button_presses` with `max = 255` on 256 clean clicks followed by 19 low
samples: the `uint8_t` counter is incremented from 255 to 0 at the 256th click, 0 is not greater
than `max`, so the handler is called with 1, 2, ..., 255 and then with 0, and the function
returns 0. -/
theorem presses_zero_at_max_255 :
    ∃ l1, GPIO_get_button_presses 19 255 true
        (Line.start (n_clicks 256 ++ List.replicate 19 false)) = some (0, l1) ∧
      l1.clicks = List.range' 1 255 ++ [0] ∧ l1.samples = [] := by
  have e : n_clicks 256 ++ List.replicate 19 false =
      one_click ++ (n_clicks (254 + 1) ++ (List.replicate 19 false ++ [])) := by
    rw [List.append_nil]
    show (one_click ++ n_clicks 255) ++ _ = _
    rw [List.append_assoc]
  obtain ⟨c1, po1, h⟩ := timeout_loop_n_clicks 19 255 (List.replicate 19 false ++ []) 254 0 1
    30000000 [1, 0] [1] (by omega)
  rw [e, GPIO_get_button_presses_one_click, h,
    timeout_loop_low_probes 19 255 true _ [] _ 19 1 _ _ (by omega)]
  have hv : (next_presses 255)^[254 + 1] 1 = 0 := by decide
  have hc : [1] ++ click_values 255 1 (254 + 1) = List.range' 1 255 ++ [0] := by decide
  exact ⟨_, by rw [hv]; exact timeout_loop_expired 19 255 true _ _, hc, rfl⟩

end Mastermind

/-! ## Register driver: pin direction -/

namespace Mastermind.Driver

/-- The repeated subtraction computes quotient and remainder by 10. -/
theorem div_loop_eq (r10 : Nat) :
    ∀ r9, r10 < 2 ^ 31 → r9 + r10 / 10 < 2 ^ 32 →
      div_loop r9 r10 = (r9 + r10 / 10, r10 % 10) := by
  induction r10 using Nat.strong_induction_on with
  | _ r10 ih =>
    intro r9 h31 h32
    rw [div_loop]
    split
    · rename_i h10
      have hpl : r10 - 10 < 2 ^ 31 := by omega
      have hq : (r9 + 1) % 2 ^ 32 = r9 + 1 := by omega
      rw [if_pos hpl, hq, ih (r10 - 10) (by omega) (r9 + 1) hpl (by omega)]
      congr 1 <;> omega
    · congr 1 <;> omega

/-- Bits of a left shift by less than 32. -/
theorem testBit_lsl (x n i : Nat) (hn : n < 32) :
    (lsl x n).testBit i = (decide (i < 32) && (decide (n ≤ i) && x.testBit (i - n))) := by
  have hm : n % 256 = n := by omega
  unfold lsl
  rw [hm, if_pos hn, Nat.testBit_mod_two_pow, Nat.testBit_shiftLeft]

/-- Bits of `BIC`. -/
theorem testBit_bic (x m i : Nat) :
    (bic x m).testBit i = (x.testBit i && (m.testBit i ^^ decide (i < 32))) := by
  unfold bic
  rw [Nat.testBit_and, Nat.testBit_xor, Nat.testBit_two_pow_sub_one]

/-- Bits of the constant 7. -/
theorem testBit_seven (j : Nat) : (7 : Nat).testBit j = decide (j < 3) :=
  Nat.testBit_two_pow_sub_one 3 j

/-- Bits of the constant 1. -/
theorem testBit_one_eq (j : Nat) : (1 : Nat).testBit j = decide (j < 1) :=
  Nat.testBit_two_pow_sub_one 1 j

/-- The result of `GPIO_set_in` with a mapped block: one load and one store at byte offset
`4 * (pin / 10)`, clearing the field selected by the mask `7 << (pin % 10) * 3`. -/
theorem GPIO_set_in_ok (dev : Device) (s : Gpio) (pin : Nat) (hg : s.gpio = true)
    (hpin : pin < 256) :
    GPIO_set_in dev s pin = .ok
      { s with
        regs := dev.store s.regs (4 * (pin / 10))
          (bic (s.regs (4 * (pin / 10)) % 2 ^ 32) (lsl 7 (pin % 10 * 3)))
        r4 := bic (s.regs (4 * (pin / 10)) % 2 ^ 32) (lsl 7 (pin % 10 * 3))
        r6 := pin % 10 * 3
        r9 := 4 * (pin / 10) } := by
  have hd : div_loop 0 pin = (pin / 10, pin % 10) := by
    have := div_loop_eq pin 0 (by omega) (by omega)
    simpa using this
  have h9 : pin / 10 * 4 % 4294967296 = 4 * (pin / 10) := by omega
  have h6 : pin % 10 * 3 % 4294967296 = pin % 10 * 3 := by omega
  simp [GPIO_set_in, ldr, str, hg, hd, h9, h6]

/-- The result of `GPIO_set_out` with a mapped block: `GPIO_set_in`, then a second store at the
same offset of the cleared word with the bit `1 << (pin % 10) * 3` set. -/
theorem GPIO_set_out_ok (dev : Device) (s : Gpio) (pin : Nat) (hg : s.gpio = true)
    (hpin : pin < 256) :
    GPIO_set_out dev s pin = .ok
      { s with
        regs := dev.store
          (dev.store s.regs (4 * (pin / 10))
            (bic (s.regs (4 * (pin / 10)) % 2 ^ 32) (lsl 7 (pin % 10 * 3))))
          (4 * (pin / 10))
          (bic (s.regs (4 * (pin / 10)) % 2 ^ 32) (lsl 7 (pin % 10 * 3)) |||
            lsl 1 (pin % 10 * 3))
        r4 := bic (s.regs (4 * (pin / 10)) % 2 ^ 32) (lsl 7 (pin % 10 * 3)) |||
            lsl 1 (pin % 10 * 3)
        r6 := pin % 10 * 3
        r9 := 4 * (pin / 10) } := by
  simp [GPIO_set_out, GPIO_set_in_ok dev s pin hg hpin, str, hg]

/-- Bits of the word that `GPIO_set_in` stores. -/
theorem testBit_cleared (w sh i : Nat) (hsh : sh < 32) :
    (bic (w % 2 ^ 32) (lsl 7 sh)).testBit i =
      (decide (i < 32) && w.testBit i && !(decide (sh ≤ i) && decide (i < sh + 3))) := by
  rw [testBit_bic, testBit_lsl 7 sh i hsh, testBit_seven, Nat.testBit_mod_two_pow]
  by_cases h32 : i < 32 <;> by_cases h1 : sh ≤ i <;> by_cases h2 : i < sh + 3 <;>
    simp [h32, h1, h2] <;> omega

/-- Bits of the word that `GPIO_set_out` stores. -/
theorem testBit_cleared_set (w sh i : Nat) (hsh : sh + 3 ≤ 32) :
    (bic (w % 2 ^ 32) (lsl 7 sh) ||| lsl 1 sh).testBit i =
      if i = sh then true
      else (decide (i < 32) && w.testBit i && !(decide (sh ≤ i) && decide (i < sh + 3))) := by
  rw [Nat.testBit_or, testBit_cleared w sh i (by omega), testBit_lsl 1 sh i (by omega),
    testBit_one_eq]
  by_cases h32 : i < 32 <;> by_cases h1 : sh ≤ i <;> by_cases h2 : i < sh + 3 <;>
    by_cases h3 : i = sh <;> simp [h32, h1, h2, h3] <;> omega

/-- A number whose bits `sh`, `sh + 1`, `sh + 2` are `b`, 0, 0 has the 3-bit field `b` at
bit offset `sh`. -/
theorem field_of_bits (w sh : Nat) (b : Bool) (h0 : w.testBit sh = b)
    (h1 : w.testBit (sh + 1) = false) (h2 : w.testBit (sh + 2) = false) :
    (w >>> sh) % 2 ^ 3 = if b then 1 else 0 := by
  apply Nat.eq_of_testBit_eq
  intro j
  rw [Nat.testBit_mod_two_pow, Nat.testBit_shiftRight]
  have hb : (if b then 1 else 0 : Nat).testBit j = (b && decide (j = 0)) := by
    cases b
    · simp
    · simp [testBit_one_eq]
  rw [hb]
  match j with
  | 0 => simp [h0]
  | 1 => simp [h1]
  | 2 => simp [h2]
  | j + 3 => simp

/-- C7. `GPIO_set_in` and `GPIO_set_out` on a mapped register block held in a plain word array,
for every pin (`uint8_t`) and every prior contents.  The subtraction loop leaves `pin / 10` and
`pin % 10`.  Each function succeeds and changes only the word at byte offset `4 * (pin / 10)`
(function-select word `pin / 10`): every word at another offset is unchanged, and within that
word every bit below 32 outside the three bits at `(pin % 10) * 3` is unchanged.  `GPIO_set_in`
leaves the 3-bit field at that offset equal to 0 (binary 000) and `GPIO_set_out` leaves it equal
to 1 (binary 001); the stored word is a 32-bit value. -/
theorem set_direction_field (s : Gpio) (pin : Nat) (hg : s.gpio = true) (hpin : pin < 256) :
    div_loop 0 pin = (pin / 10, pin % 10) ∧
    (∃ s1, GPIO_set_in word_array s pin = .ok s1 ∧
      (∀ off, off ≠ 4 * (pin / 10) → s1.regs off = s.regs off) ∧
      (∀ i, i < 32 → (i < pin % 10 * 3 ∨ pin % 10 * 3 + 3 ≤ i) →
        (s1.regs (4 * (pin / 10))).testBit i = (s.regs (4 * (pin / 10))).testBit i) ∧
      (s1.regs (4 * (pin / 10)) >>> (pin % 10 * 3)) % 2 ^ 3 = 0 ∧
      s1.regs (4 * (pin / 10)) < 2 ^ 32) ∧
    (∃ s2, GPIO_set_out word_array s pin = .ok s2 ∧
      (∀ off, off ≠ 4 * (pin / 10) → s2.regs off = s.regs off) ∧
      (∀ i, i < 32 → (i < pin % 10 * 3 ∨ pin % 10 * 3 + 3 ≤ i) →
        (s2.regs (4 * (pin / 10))).testBit i = (s.regs (4 * (pin / 10))).testBit i) ∧
      (s2.regs (4 * (pin / 10)) >>> (pin % 10 * 3)) % 2 ^ 3 = 1 ∧
      s2.regs (4 * (pin / 10)) < 2 ^ 32) := by
  have hsh : pin % 10 * 3 + 3 ≤ 32 := by omega
  refine ⟨?_, ?_, ?_⟩
  · have := div_loop_eq pin 0 (by omega) (by omega)
    simpa using this
  · refine ⟨_, GPIO_set_in_ok word_array s pin hg hpin, ?_, ?_, ?_, ?_⟩
    · intro off hoff
      simp [word_array, hoff]
    · intro i hi hout
      simp only [word_array, if_true]
      rw [testBit_cleared _ _ _ (by omega)]
      rcases hout with h | h
      · have : ¬ pin % 10 * 3 ≤ i := by omega
        simp [hi, this]
      · have : ¬ i < pin % 10 * 3 + 3 := by omega
        simp [hi, this]
    · simp only [word_array, if_true]
      have hf := field_of_bits (bic (s.regs (4 * (pin / 10)) % 2 ^ 32) (lsl 7 (pin % 10 * 3)))
        (pin % 10 * 3) false
        (by rw [testBit_cleared _ _ _ (by omega)]; simp)
        (by rw [testBit_cleared _ _ _ (by omega)]; simp)
        (by rw [testBit_cleared _ _ _ (by omega)]; simp)
      simpa using hf
    · simp only [word_array, if_true]
      apply Nat.lt_pow_two_of_testBit
      intro i hi
      rw [testBit_cleared _ _ _ (by omega)]
      have : ¬ i < 32 := by omega
      simp [this]
  · refine ⟨_, GPIO_set_out_ok word_array s pin hg hpin, ?_, ?_, ?_, ?_⟩
    · intro off hoff
      simp [word_array, hoff]
    · intro i hi hout
      simp only [word_array, if_true]
      rw [testBit_cleared_set _ _ _ hsh]
      rcases hout with h | h
      · have h1 : ¬ pin % 10 * 3 ≤ i := by omega
        have h2 : i ≠ pin % 10 * 3 := by omega
        simp [hi, h1, h2]
      · have h1 : ¬ i < pin % 10 * 3 + 3 := by omega
        have h2 : i ≠ pin % 10 * 3 := by omega
        simp [hi, h1, h2]
    · simp only [word_array, if_true]
      have hf := field_of_bits
        (bic (s.regs (4 * (pin / 10)) % 2 ^ 32) (lsl 7 (pin % 10 * 3)) ||| lsl 1 (pin % 10 * 3))
        (pin % 10 * 3) true
        (by rw [testBit_cleared_set _ _ _ hsh]; simp)
        (by rw [testBit_cleared_set _ _ _ hsh]; simp)
        (by rw [testBit_cleared_set _ _ _ hsh]; simp)
      simpa using hf
    · simp only [word_array, if_true]
      apply Nat.lt_pow_two_of_testBit
      intro i hi
      rw [testBit_cleared_set _ _ _ hsh]
      have h1 : ¬ i < 32 := by omega
      have h2 : i ≠ pin % 10 * 3 := by omega
      simp [h1, h2]

/-- C7, instance: pin 17 on a block whose words are all ones; `GPIO_set_out` leaves the field
of pin 17 (bits 21-23 of the word at offset 4) equal to 1. -/
theorem set_direction_field_witness :
    ∃ s2, GPIO_set_out word_array ⟨true, fun _ => 0xFFFFFFFF, 0, 0, 0, []⟩ 17 = .ok s2 ∧
      (∀ off, off ≠ 4 * (17 / 10) → s2.regs off = 0xFFFFFFFF) ∧
      (∀ i, i < 32 → (i < 17 % 10 * 3 ∨ 17 % 10 * 3 + 3 ≤ i) →
        (s2.regs (4 * (17 / 10))).testBit i = (0xFFFFFFFF : Nat).testBit i) ∧
      (s2.regs (4 * (17 / 10)) >>> (17 % 10 * 3)) % 2 ^ 3 = 1 ∧
      s2.regs (4 * (17 / 10)) < 2 ^ 32 :=
  (set_direction_field ⟨true, fun _ => 0xFFFFFFFF, 0, 0, 0, []⟩ 17 rfl (by decide)).2.2

/-! ## Register driver: loopback round trip -/

/-- A number with a set bit is positive. -/
theorem pos_of_testBit {x i : Nat} (h : x.testBit i = true) : 0 < x := by
  rcases Nat.eq_zero_or_pos x with h0 | h0
  · rw [h0, Nat.zero_testBit] at h
    cases h
  · exact h0

/-- C8 as stated fails on pin 32: in the loopback model, on a mapped block of zero words,
`GPIO_set_out(32)`, `GPIO_set_state(32, 1)`, then the raw read of pin 32 returns 0 (low).  The
shift `1 << 32` is 0, so no bit is written to `GPSET0` and no bit of `GPLEV0` is tested. -/
theorem out_write_read_pin_32_low :
    out_write_read loopback ⟨true, fun _ => 0, 0, 0, 0, []⟩ 32 1 = .ok 0 := by
  have h := GPIO_set_out_ok loopback ⟨true, fun _ => 0, 0, 0, 0, []⟩ 32 rfl (by decide)
  simp [out_write_read, h, GPIO_set_state, get_state, ldr, str, lsl, GPSET0, GPLEV0]

/-- C8, amended to the pins of the first register bank.  In the loopback model, for every pin
from 0 to 31, every mapped register block and every non-zero `state`: `GPIO_set_out(pin)`
followed by `GPIO_set_state(pin, state)` makes the raw read `get_state(pin)` return 1. -/
theorem out_write_read_high (s : Gpio) (pin state : Nat) (hg : s.gpio = true)
    (hpin : pin < 32) (hstate : state ≠ 0) :
    out_write_read loopback s pin state = .ok 1 := by
  have h := GPIO_set_out_ok loopback s pin hg (by omega)
  have hbit : ∀ a : Nat, 0 < ((a ||| lsl 1 pin) % 2 ^ 32) &&& lsl 1 pin := by
    intro a
    apply pos_of_testBit (i := pin)
    rw [Nat.testBit_and, Nat.testBit_mod_two_pow, Nat.testBit_or, testBit_lsl 1 pin pin hpin,
      testBit_one_eq]
    simp [hpin]
  have hl : ∀ (m : Regs) (v : Nat), loopback.store m GPSET0 v GPLEV0 = (m GPLEV0 ||| v) := by
    intro m v
    simp [loopback, GPSET0, GPLEV0]
  unfold out_write_read
  rw [h]
  simp only [GPIO_set_state, hstate, ne_eq, not_false_eq_true, if_true, ldr, str, hg, get_state,
    hl]
  rw [if_pos (hbit _)]

/-- C8 amended, instance: pin 19 on a block of zero words. -/
theorem out_write_read_high_witness :
    out_write_read loopback ⟨true, fun _ => 0, 0, 0, 0, []⟩ 19 1 = .ok 1 :=
  out_write_read_high ⟨true, fun _ => 0, 0, 0, 0, []⟩ 19 1 rfl (by decide) (by decide)

/-! ## Register driver: unset handle -/

/-- C9. The four pin operations with the handle `gpio` unset, for every device model, register
contents, pin and `state`.  `GPIO_set_in` and `GPIO_set_out` only append the diagnostic and
leave everything else unchanged.  `GPIO_set_state` and `get_state` have no such check: their
first instruction loads through the null base, an access to the unmapped address `0x1C`
(`state` non-zero), `0x28` (`state` zero), respectively `0x34`; no diagnostic is logged. -/
theorem pin_operations_with_unset_handle (dev : Device) (regs : Regs) (r4 r6 r9 : Nat)
    (err : List String) (pin : Nat) :
    GPIO_set_in dev ⟨false, regs, r4, r6, r9, err⟩ pin =
      .ok ⟨false, regs, r4, r6, r9, err ++ ["Error: Null GPIO pointer\n"]⟩ ∧
    GPIO_set_out dev ⟨false, regs, r4, r6, r9, err⟩ pin =
      .ok ⟨false, regs, r4, r6, r9, err ++ ["Error: Null GPIO pointer\n"]⟩ ∧
    GPIO_set_state dev ⟨false, regs, r4, r6, r9, err⟩ pin 1 = .error 0x1C ∧
    GPIO_set_state dev ⟨false, regs, r4, r6, r9, err⟩ pin 0 = .error 0x28 ∧
    get_state ⟨false, regs, r4, r6, r9, err⟩ pin = .error 0x34 := by
  refine ⟨?_, ?_, ?_, ?_, ?_⟩
  · simp [GPIO_set_in]
  · simp [GPIO_set_out]
  · simp [GPIO_set_state, ldr, GPSET0]
  · simp [GPIO_set_state, ldr, GPCLR0]
  · simp [get_state, ldr, GPLEV0]

end Mastermind.Driver

/-! ## Display driver: byte write -/

namespace Mastermind.LCD

set_option maxRecDepth 100000 in
/-- The levels driven for the byte `b`: arithmetic on the 256 byte values. -/
theorem nibbles_of_byte :
    ∀ b, b < 256 →
      (level ((b >>> 4) % 256 &&& 1) = b / 16 % 2 ∧ level ((b >>> 4) % 256 &&& 2) = b / 32 % 2 ∧
        level ((b >>> 4) % 256 &&& 4) = b / 64 % 2 ∧
        level ((b >>> 4) % 256 &&& 8) = b / 128 % 2) ∧
      (level (b &&& 1) = b % 2 ∧ level (b &&& 2) = b / 2 % 2 ∧ level (b &&& 4) = b / 4 % 2 ∧
        level (b &&& 8) = b / 8 % 2) := by
  decide

/-- C10. `LCD_write_data(b)` and `LCD_write_command(b)` for every byte `b`: the calls made are
exactly one write of the register-select line (1 for data, 0 for a command) followed by two
phases, each enable high, D4, D5, D6, D7, enable low, and the settle sleep.  In the first phase
the levels driven on D4..D7 are bits 4..7 of `b`, in the second bits 0..3, so the first nibble is
`b / 16`, the second `b % 16`, and 16 * first + second = `b`.  No event after the first one
writes the register-select line. -/
theorem LCD_write_byte (b : Nat) (hb : b < 256) :
    ∃ h0 h1 h2 h3 l0 l1 l2 l3,
      LCD_write_data b = byte_write 1 h0 h1 h2 h3 l0 l1 l2 l3 ∧
      LCD_write_command b = byte_write 0 h0 h1 h2 h3 l0 l1 l2 l3 ∧
      (level h0 = b / 16 % 2 ∧ level h1 = b / 32 % 2 ∧ level h2 = b / 64 % 2 ∧
        level h3 = b / 128 % 2) ∧
      (level l0 = b % 2 ∧ level l1 = b / 2 % 2 ∧ level l2 = b / 4 % 2 ∧ level l3 = b / 8 % 2) ∧
      nibble_of h0 h1 h2 h3 = b / 16 ∧
      nibble_of l0 l1 l2 l3 = b % 16 ∧
      16 * nibble_of h0 h1 h2 h3 + nibble_of l0 l1 l2 l3 = b ∧
      (∀ e ∈ (LCD_write_data b).tail, ∀ st, e ≠ .set_state LCD_RS st) ∧
      (∀ e ∈ (LCD_write_command b).tail, ∀ st, e ≠ .set_state LCD_RS st) := by
  have hm : b % 2 ^ 8 = b := Nat.mod_eq_of_lt hb
  have hm2 : b % 256 = b := Nat.mod_eq_of_lt hb
  obtain ⟨⟨a0, a1, a2, a3⟩, c0, c1, c2, c3⟩ := nibbles_of_byte b hb
  have hd : LCD_write_data b = byte_write 1 ((b >>> 4) % 256 &&& 1) ((b >>> 4) % 256 &&& 2)
      ((b >>> 4) % 256 &&& 4) ((b >>> 4) % 256 &&& 8) (b &&& 1) (b &&& 2) (b &&& 4) (b &&& 8) := by
    simp [LCD_write_data, write, write_nibble, byte_write, hm2, Mastermind.US_TO_NS]
  have hc : LCD_write_command b = byte_write 0 ((b >>> 4) % 256 &&& 1) ((b >>> 4) % 256 &&& 2)
      ((b >>> 4) % 256 &&& 4) ((b >>> 4) % 256 &&& 8) (b &&& 1) (b &&& 2) (b &&& 4) (b &&& 8) := by
    simp [LCD_write_command, write, write_nibble, byte_write, hm2, Mastermind.US_TO_NS]
  refine ⟨_, _, _, _, _, _, _, _, hd, hc, ⟨a0, a1, a2, a3⟩, ⟨c0, c1, c2, c3⟩, ?_, ?_, ?_, ?_, ?_⟩
  · simp only [nibble_of, a0, a1, a2, a3]; omega
  · simp only [nibble_of, c0, c1, c2, c3]; omega
  · simp only [nibble_of, a0, a1, a2, a3, c0, c1, c2, c3]; omega
  · rw [hd]
    intro e he st
    simp [byte_write, LCD_RS, LCD_E, LCD_D4, LCD_D5, LCD_D6, LCD_D7] at he
    rcases he with h | h | h | h | h | h | h | h | h | h | h | h | h <;> rw [h] <;>
      simp [LCD_RS, LCD_E, LCD_D4, LCD_D5, LCD_D6, LCD_D7]
  · rw [hc]
    intro e he st
    simp [byte_write, LCD_RS, LCD_E, LCD_D4, LCD_D5, LCD_D6, LCD_D7] at he
    rcases he with h | h | h | h | h | h | h | h | h | h | h | h | h <;> rw [h] <;>
      simp [LCD_RS, LCD_E, LCD_D4, LCD_D5, LCD_D6, LCD_D7]

/-- C10, instance: the byte `0xA5` written as data; first nibble 10, second nibble 5. -/
theorem LCD_write_byte_witness :
    ∃ h0 h1 h2 h3 l0 l1 l2 l3,
      LCD_write_data 0xA5 = byte_write 1 h0 h1 h2 h3 l0 l1 l2 l3 ∧
      nibble_of h0 h1 h2 h3 = 10 ∧ nibble_of l0 l1 l2 l3 = 5 := by
  obtain ⟨h0, h1, h2, h3, l0, l1, l2, l3, hd, -, -, -, hh, hl, -⟩ :=
    LCD_write_byte 0xA5 (by decide)
  exact ⟨h0, h1, h2, h3, l0, l1, l2, l3, hd, hh, hl⟩

end Mastermind.LCD

/-! ## Game: scoring -/

namespace Mastermind.Game

/-- The inner loop does not touch `exact`. -/
theorem inner_loop_exact (secret : List Int) (gi : Int) :
    ∀ (k j : Nat) (m : Matches), (inner_loop secret gi k j m).exact = m.exact := by
  intro k
  induction k with
  | zero => intro j m; rfl
  | succ k ih =>
    intro j m
    rw [inner_loop]
    split
    · rfl
    · exact ih (j + 1) m

/-- One iteration of the outer loop adds 1 to `exact` exactly when `guess[i] = secret[i]`. -/
theorem outer_body_exact (secret guess : List Int) (size i : Nat) (m : Matches) :
    (outer_body secret guess size i m).exact =
      m.exact + (if guess.getD i 0 = secret.getD i 0 then 1 else 0) := by
  unfold outer_body
  by_cases h : guess.getD i 0 = secret.getD i 0
  · rw [if_pos h, if_pos h]
    by_cases hc : m.counted.getD i false = true
    · simp only [if_pos hc]
    · simp only [if_neg hc]
  · rw [if_neg h, if_neg h, inner_loop_exact, add_zero]

/-- The outer loop adds to `exact` the number of matching positions among the indices it
visits. -/
theorem outer_loop_exact (secret guess : List Int) (size : Nat) :
    ∀ (k i : Nat) (m : Matches),
      (outer_loop secret guess size k i m).exact =
        m.exact + (((List.range' i k).filter
          (fun i => decide (guess.getD i 0 = secret.getD i 0))).length : Int) := by
  intro k
  induction k with
  | zero => intro i m; simp [outer_loop]
  | succ k ih =>
    intro i m
    rw [outer_loop, ih, outer_body_exact, List.range'_succ, List.filter_cons]
    by_cases h : guess.getD i 0 = secret.getD i 0
    · simp only [h, decide_True, if_true, List.length_cons]
      push_cast
      ring
    · simp only [h, decide_False, if_false]
      simp

/-- Two lists of the same length are equal exactly when they agree at every index. -/
theorem eq_iff_getD_eq (secret guess : List Int) (size : Nat) (hs : secret.length = size)
    (hg : guess.length = size) :
    guess = secret ↔ ∀ i, i < size → guess.getD i 0 = secret.getD i 0 := by
  constructor
  · intro h i _
    rw [h]
  · intro h
    apply List.ext_getElem (by rw [hs, hg])
    intro n h1 h2
    have := h n (by omega)
    rwa [List.getD_eq_getElem _ _ h1, List.getD_eq_getElem _ _ h2] at this

/-- C12. `MM_calculate_matches` called with both counters at 0 on a secret and a guess of the
same length `size`: the resulting `exact` is the number of positions `i < size` with
`guess[i] = secret[i]`.  Hence `exact` equals `size`, the win test of the game loop, if and
only if the guess equals the secret at every position. -/
theorem MM_calculate_matches_exact (secret guess : List Int) (size : Nat)
    (hs : secret.length = size) (hg : guess.length = size) :
    (MM_calculate_matches 0 0 secret guess size).1 = (exact_positions secret guess size : Int) ∧
    (is_win (MM_calculate_matches 0 0 secret guess size).1 size = true ↔ guess = secret) := by
  have hex : (MM_calculate_matches 0 0 secret guess size).1 =
      (exact_positions secret guess size : Int) := by
    simp only [MM_calculate_matches, exact_positions]
    rw [outer_loop_exact, List.range_eq_range']
    simp
  refine ⟨hex, ?_⟩
  rw [is_win, decide_eq_true_eq, hex, eq_iff_getD_eq secret guess size hs hg]
  have key := @List.filter_length_eq_length Nat
    (fun i => decide (guess.getD i 0 = secret.getD i 0)) (List.range size)
  rw [List.length_range] at key
  rw [Nat.cast_inj, exact_positions, key]
  simp [List.mem_range]

/-- C12, instance: secret 2, 1, 1 and guess 1, 1, 3 agree at one position and do not win. -/
theorem MM_calculate_matches_exact_witness :
    (MM_calculate_matches 0 0 [2, 1, 1] [1, 1, 3] 3).1 =
        (exact_positions [2, 1, 1] [1, 1, 3] 3 : Int) ∧
      (is_win (MM_calculate_matches 0 0 [2, 1, 1] [1, 1, 3] 3).1 3 = true ↔
        ([1, 1, 3] : List Int) = [2, 1, 1]) :=
  MM_calculate_matches_exact [2, 1, 1] [1, 1, 3] 3 rfl rfl

/-- C11. `MM_calculate_matches` called with both counters at 0 on the secret 2, 1, 1 and the
guess 1, 1, 3: the resulting `approx` is 0 (and `exact` is 1), while the standard value, the sum
over all values of the smaller number of occurrences minus the exact matches, is 2 - 1 = 1.
The first guess entry is paired with `secret[1]`, that pairing is taken back when position 1
turns out to be an exact match, and the first entry is not paired again with `secret[2]`. -/
theorem MM_calculate_matches_approx_undercounts :
    MM_calculate_matches 0 0 [2, 1, 1] [1, 1, 3] 3 = (1, 0) ∧
    common_values [2, 1, 1] [1, 1, 3] = 2 ∧
    exact_positions [2, 1, 1] [1, 1, 3] 3 = 1 ∧
    standard_approx [2, 1, 1] [1, 1, 3] 3 = 1 := by
  refine ⟨by decide, by decide, by decide, by decide⟩

/-! ## Game: settings and secret generation -/

/-- With a non-zero `max_random` the generation loop is defined and every digit lies between
1 and `max_random`. -/
theorem generate_loop_in_range (max_random : Nat) (rand : Nat → Nat) (hm : 1 ≤ max_random) :
    ∀ (k i : Nat), ∃ secret, generate_loop max_random rand k i = some secret ∧
      secret.length = k ∧ ∀ d ∈ secret, 1 ≤ d ∧ d ≤ max_random := by
  intro k
  induction k with
  | zero => intro i; exact ⟨[], rfl, rfl, by simp⟩
  | succ k ih =>
    intro i
    obtain ⟨rest, hr, hl, hd⟩ := ih (i + 1)
    have hne : max_random ≠ 0 := by omega
    refine ⟨(rand i % max_random + 1) :: rest, ?_, by simp [hl], ?_⟩
    · simp [generate_loop, c_mod, hne, hr]
    · intro d hmem
      rcases List.mem_cons.mp hmem with h | h
      · have := Nat.mod_lt (rand i) (show 0 < max_random by omega)
        omega
      · exact hd d h

/-- For every `max_random` from 1 to 255 and every random source, `MM_generate_secret` returns
`number_of_numbers` digits, each between 1 and `max_random`. -/
theorem MM_generate_secret_in_range (s : Settings) (rand : Nat → Nat)
    (hm : 1 ≤ s.max_random) :
    ∃ secret, MM_generate_secret s rand = some secret ∧
      secret.length = s.number_of_numbers ∧ ∀ d ∈ secret, 1 ≤ d ∧ d ≤ s.max_random :=
  generate_loop_in_range s.max_random rand hm s.number_of_numbers 0

/-- With `max_random = 0` the first digit computation divides by zero. -/
theorem generate_loop_zero (rand : Nat → Nat) (k i : Nat) :
    generate_loop 0 rand (k + 1) i = none := by
  simp [generate_loop, c_mod]

set_option maxRecDepth 100000 in
/-- Every value from 0 to 255 can be stored in `max_random` by an argument `-c=<value>`. -/
theorem MM_parse_args_max_arg :
    ∀ m, m < 256 → MM_parse_args [max_arg m] Settings.initial =
      some { number_of_numbers := 3, number_of_rounds := 3, max_random := m, debug := false } := by
  decide

/-- C13. The argument `-c=0` is accepted and stores 0 in `max_random`; with that setting and
the default sequence length 3, `MM_generate_secret` divides by zero in the first digit
computation `rand() % max_random`, for every value returned by the random source. -/
theorem MM_generate_secret_divides_by_zero :
    MM_parse_args [['-', 'c', '=', '0']] Settings.initial =
      some { number_of_numbers := 3, number_of_rounds := 3, max_random := 0, debug := false } ∧
    ∀ rand : Nat → Nat,
      MM_generate_secret
        { number_of_numbers := 3, number_of_rounds := 3, max_random := 0, debug := false } rand
        = none := by
  refine ⟨by decide, ?_⟩
  intro rand
  exact generate_loop_zero rand 2 0

end Mastermind.Game
